import Mathlib

/-!
# Verification of the genara identifier services

Shallow embedding of the genara TypeScript library (seven identifier
format services — TCKN, VKN, IBAN, credit card, IMEI, ISBN, EAN/UPC —
plus the detection engine of `ServiceFactory`).

Strings are modelled as `List Char`.  JavaScript's `Math.random`-driven
padding loops are modelled by an explicit digit stream `Nat → Fin 10`
(the `i`-th random draw); random choices made once (bank code, TAC,
GS1 prefix, …) are parameters constrained by the hypotheses of the
theorems, which record exactly what the source code guarantees about
them.  Fallible methods (`complete` with its `throw`s) return
`Except String (List Char)`.
-/

namespace Genara

/-- ASCII whitespace removed by the `/\s/g` regexes of the source
(space, tab, newline, carriage return). -/
def isWsChar (c : Char) : Bool :=
  c = ' ' || c = '\t' || c = '\n' || c = '\r'

/-- `/\d/`: an ASCII decimal digit. -/
def isDigitChar (c : Char) : Bool :=
  48 ≤ c.toNat && c.toNat ≤ 57

/-- Numeric value of a digit character, `parseInt(c, 10)` on digits. -/
def digitVal (c : Char) : Nat := c.toNat - 48

/-- The character of a single decimal digit (`n.toString()` for `n < 10`). -/
def digitChar (n : Nat) : Char := Char.ofNat (48 + n)

/-- `n.toString().padStart(2, '0')` for `n ≤ 99`. -/
def twoDigits (n : Nat) : List Char := [digitChar (n / 10), digitChar (n % 10)]

/-- `String.toUpperCase` on one character (ASCII). -/
def jsUpper (c : Char) : Char :=
  if 97 ≤ c.toNat ∧ c.toNat ≤ 122 then Char.ofNat (c.toNat - 32) else c

/-- `parseInt(s, 10)` on a string of decimal digits. -/
def digitsToNat (s : List Char) : Nat :=
  s.foldl (fun acc c => acc * 10 + digitVal c) 0

/-- The digit characters produced by draws `0, …, n-1` of the random
stream: models a loop appending `Math.floor(Math.random() * 10)` `n`
times. -/
def padDigits (rnd : Nat → Fin 10) (n : Nat) : List Char :=
  (List.range n).map (fun i => digitChar (rnd i))

/-- `s.padEnd(n, fill)`. -/
def padEndList (s : List Char) (n : Nat) (fill : Char) : List Char :=
  s ++ List.replicate (n - s.length) fill

/-! ## Shared Luhn algorithm (credit card and IMEI services) -/

/-- Doubling step of the Luhn algorithm: `digit *= 2; if > 9 then -= 9`. -/
def luhnDouble (d : Nat) : Nat := if 2 * d > 9 then 2 * d - 9 else 2 * d

/-- Luhn sum of a digit string processed right-to-left; the list
argument is already reversed, `dbl` says whether the current digit is
doubled. -/
def luhnSumRev : List Char → Bool → Nat
  | [], _ => 0
  | c :: rest, dbl =>
    (if dbl then luhnDouble (digitVal c) else digitVal c) + luhnSumRev rest (!dbl)

/-- `validateLuhn`: right-to-left alternating sum starting undoubled,
total must be divisible by 10. -/
def validateLuhn (s : List Char) : Bool :=
  luhnSumRev s.reverse false % 10 = 0

/-- `calculateLuhnCheckDigit`: same sum over the payload but starting
doubled, check digit `= (10 - sum % 10) % 10`. -/
def calculateLuhnCheckDigit (payload : List Char) : Nat :=
  (10 - luhnSumRev payload.reverse true % 10) % 10

/-! ## TcknService -/

namespace Tckn

/-- `TcknService.INVALID_PATTERNS`: ten denylisted 11-digit strings. -/
def INVALID_PATTERNS : List (List Char) :=
  ["11111111110".toList, "22222222220".toList, "33333333330".toList,
   "44444444440".toList, "55555555550".toList, "66666666660".toList,
   "77777777770".toList, "88888888880".toList, "99999999990".toList]

/-- `TcknService.INVALID_PREFIXES`: nine denylisted 9-digit prefixes. -/
def INVALID_PREFIXES : List (List Char) :=
  ["111111111".toList, "222222222".toList, "333333333".toList,
   "444444444".toList, "555555555".toList, "666666666".toList,
   "777777777".toList, "888888888".toList, "999999999".toList]

/-- Sum of the digits at indices 0, 2, 4, … of a list (the loops
`for (i = 0; i < 9; i += 2)` and `for (i = 1; i < 8; i += 2)` are both
such sums after an appropriate `take`/`drop`). -/
def sumEveryOther : List Char → Nat
  | [] => 0
  | [c] => digitVal c
  | c :: _ :: rest => digitVal c + sumEveryOther rest

/-- `TcknService.calculateCheckDigits` on a 9-digit prefix:
`t1` sums indices 0,2,4,6,8 and `t2` indices 1,3,5,7. -/
def calculateCheckDigits (pfx : List Char) : Nat × Nat :=
  let t1 := sumEveryOther (pfx.take 9)
  let t2 := sumEveryOther ((pfx.take 8).drop 1)
  let c10 := (10 - (t1 * 3 + t2) % 10) % 10
  let c11 := (10 - ((t2 + c10) * 3 + t1) % 10) % 10
  (c10, c11)

/-- `TcknService.validate`. -/
def validate (s : List Char) : Bool :=
  if s.length ≠ 11 then false
  else if ¬ s.all isDigitChar then false
  else if s.take 1 = ['0'] then false
  else if s ∈ INVALID_PATTERNS then false
  else
    match s.drop 9 with
    | [d10, d11] =>
      let cd := calculateCheckDigits (s.take 9)
      digitVal d10 = cd.1 && digitVal d11 = cd.2
    | _ => false

/-- `TcknService.complete` (including `validatePrefix`'s three throws). -/
def complete (pfx : List Char) : Except String (List Char) :=
  if ¬ (pfx.length = 9 ∧ pfx.all isDigitChar) then
    .error "Prefix sadece 9 rakamdan oluşmalıdır"
  else if pfx.take 1 = ['0'] then
    .error "İlk rakam 0 olamaz"
  else if pfx ∈ INVALID_PREFIXES then
    .error "Geçersiz prefix desenli"
  else
    let cd := calculateCheckDigits pfx
    .ok (pfx ++ [digitChar cd.1, digitChar cd.2])

/-- `TcknService.generate`: the do-while loop draws a 9-digit prefix
with first digit 1–9 and retries while it is in `INVALID_PREFIXES`;
the accepted prefix is then passed to `complete`.  The function is the
post-loop body, parameterised by the accepted prefix. -/
def generate (pfx : List Char) : Except String (List Char) :=
  complete pfx

end Tckn

/-! ## VknService -/

namespace Vkn

/-- The contribution `q` of digit `d` at 1-indexed position `pos`:
`p = (d + 10 - pos) % 10`; `q = 9` if `p = 9` else `(p * 2^(10-pos)) % 9`. -/
def q (d pos : Nat) : Nat :=
  let p := (d + 10 - pos) % 10
  if p = 9 then 9 else (p * 2 ^ (10 - pos)) % 9

/-- The loop of `VknService.calculateCheckDigit`, accumulating `q` with
the position counter. -/
def sumGo : Nat → List Char → Nat
  | _, [] => 0
  | pos, c :: rest => q (digitVal c) pos + sumGo (pos + 1) rest

/-- `VknService.calculateCheckDigit` over the first 9 digits. -/
def calculateCheckDigit (pfx : List Char) : Nat :=
  (10 - sumGo 1 (pfx.take 9) % 10) % 10

/-- `VknService.validate`. -/
def validate (s : List Char) : Bool :=
  if s.length ≠ 10 then false
  else if ¬ s.all isDigitChar then false
  else
    match s.drop 9 with
    | [d10] => digitVal d10 = calculateCheckDigit (s.take 9)
    | _ => false

/-- `VknService.complete` (with `validatePrefix`'s throw). -/
def complete (pfx : List Char) : Except String (List Char) :=
  if ¬ (pfx.length = 9 ∧ pfx.all isDigitChar) then
    .error "Prefix sadece 9 rakamdan oluşmalıdır"
  else
    .ok (pfx ++ [digitChar (calculateCheckDigit pfx)])

/-- `VknService.generate`: draws 9 random digits and completes them;
parameterised by the drawn prefix. -/
def generate (pfx : List Char) : Except String (List Char) :=
  complete pfx

end Vkn

/-! ## IbanService -/

namespace Iban

/-- `value.replace(/\s/g, '').toUpperCase()`. -/
def clean (s : List Char) : List Char :=
  (s.filter (fun c => !isWsChar c)).map jsUpper

/-- `cleanNumber.startsWith('TR')`. -/
def startsWithTR (s : List Char) : Bool := s.take 2 = "TR".toList

/-- `/^TR\d{24}$/.test(s)`. -/
def matchTR24 (s : List Char) : Bool :=
  s.take 2 = "TR".toList && (s.drop 2).length = 24 && (s.drop 2).all isDigitChar

/-- `convertLettersToNumbers`: each `A`–`Z` becomes its two-digit code
(`charCodeAt - 55`, so `A=10 … Z=35`), other characters unchanged. -/
def convertLettersToNumbers (s : List Char) : List Char :=
  s.flatMap (fun c =>
    if 65 ≤ c.toNat ∧ c.toNat ≤ 90 then twoDigits (c.toNat - 55) else [c])

/-- The chunk loop of `calculateMod97`: consume 7 characters at a time,
`remainder = parseInt(remainder.toString() + chunk) % 97`. -/
def calculateMod97Go (r : Nat) (s : List Char) : Nat :=
  match s with
  | [] => r
  | c :: rest =>
    let chunk := (c :: rest).take 7
    calculateMod97Go ((r * 10 ^ chunk.length + digitsToNat chunk) % 97)
      ((c :: rest).drop 7)
termination_by s.length
decreasing_by simp; omega

/-- `IbanService.calculateMod97` (piece-wise mod of a long decimal string). -/
def calculateMod97 (s : List Char) : Nat := calculateMod97Go 0 s

/-- `validateChecksum`: move the first 4 characters to the end, convert
letters, check the piece-wise mod-97 remainder is 1. -/
def validateChecksum (iban : List Char) : Bool :=
  calculateMod97 (convertLettersToNumbers (iban.drop 4 ++ iban.take 4)) = 1

/-- `IbanService.validate`. -/
def validate (s : List Char) : Bool :=
  let c := clean s
  if ¬ startsWithTR c then false
  else if c.length ≠ 26 then false
  else if ¬ matchTR24 c then false
  else if (c.drop 9).take 1 ≠ ['0'] then false
  else validateChecksum c

/-- `calculateCheckDigits`: zero out the check-digit slots, rearrange,
convert, and return `98 - remainder` (rendered with `padStart(2, '0')`
at use sites via `twoDigits`). -/
def calculateCheckDigits (ibanWithPlaceholder : List Char) : Nat :=
  let ibanWithZeros :=
    ibanWithPlaceholder.take 2 ++ ['0', '0'] ++ ibanWithPlaceholder.drop 4
  98 - calculateMod97 (convertLettersToNumbers
    (ibanWithZeros.drop 4 ++ ibanWithZeros.take 4))

/-- The group-of-4 loop of `formatIban`. -/
def formatGroupsGo (s : List Char) : List Char :=
  match s with
  | [] => []
  | c :: rest =>
    (c :: rest).take 4 ++
      (if (c :: rest).drop 4 = [] then []
       else ' ' :: formatGroupsGo ((c :: rest).drop 4))
termination_by s.length
decreasing_by simp; omega

/-- `formatIban`: strip spaces, then join 4-character groups with spaces. -/
def formatIban (iban : List Char) : List Char :=
  formatGroupsGo (iban.filter (fun c => !isWsChar c))

/-- `IbanService.BANK_CODES`. -/
def BANK_CODES : List (List Char) :=
  ["00001".toList, "00010".toList, "00012".toList, "00015".toList,
   "00032".toList, "00046".toList, "00062".toList, "00067".toList,
   "00111".toList, "00123".toList, "00134".toList, "00135".toList,
   "00143".toList, "00146".toList, "00149".toList, "00203".toList,
   "00206".toList]

/-- `IbanService.generate`, parameterised by the randomly chosen bank
code (drawn from `BANK_CODES`) and the random 16-digit account number. -/
def generate (bankCode acct : List Char) : List Char :=
  let base := 'T' :: 'R' :: '0' :: '0' :: (bankCode ++ '0' :: acct)
  let cd := calculateCheckDigits base
  formatIban ('T' :: 'R' :: (twoDigits cd ++ bankCode ++ '0' :: acct))

/-- `IbanService.complete`; the random account number drawn in the
"has TR but incomplete" branch comes from the digit stream `rnd`. -/
def complete (pfx : List Char) (rnd : Nat → Fin 10) : List Char :=
  let c := clean pfx
  if ¬ startsWithTR c then
    if c = [] then "TR320010009999901234567890".toList
    else 'T' :: 'R' :: padEndList c 24 '0'
  else if c.length < 26 then
    generate "00001".toList (padDigits rnd 16)
  else formatIban c

end Iban

/-! ## CreditCardService -/

namespace CreditCard

/-- The data of one entry of `CreditCardService.CARD_TYPES` (the leading
patterns are the `matches*` functions below). -/
structure CardInfo where
  lengths : List Nat
  displayName : String
deriving DecidableEq

/-- The six network keys, in the iteration order of `CARD_TYPES`. -/
inductive CardKind | visa | mastercard | amex | discover | jcb | diners
deriving DecidableEq

/-- Lengths and display name per network, from `CARD_TYPES`. -/
def cardInfo : CardKind → CardInfo
  | .visa => ⟨[13, 16, 19], "Visa"⟩
  | .mastercard => ⟨[16], "Mastercard"⟩
  | .amex => ⟨[15], "American Express"⟩
  | .discover => ⟨[16], "Discover"⟩
  | .jcb => ⟨[16], "JCB"⟩
  | .diners => ⟨[14], "Diners Club"⟩

/-- `c` is in the character range `lo`–`hi` (a regex character class). -/
def charBetween (lo hi c : Char) : Bool :=
  lo.toNat ≤ c.toNat && c.toNat ≤ hi.toNat

/-- The character at index `i` of `s` satisfies `p` (false past the end):
how an anchored regex inspects one position. -/
def charAtIs (s : List Char) (i : Nat) (p : Char → Bool) : Bool :=
  match s.drop i with
  | c :: _ => p c
  | [] => false

/-- `/^4/`. -/
def matchesVisa (s : List Char) : Bool := s.take 1 = ['4']

/-- `/^5[1-5]/` or `/^2[2-7]/` (the two Mastercard patterns, tested in
order). -/
def matchesMastercard (s : List Char) : Bool :=
  (s.take 1 = ['5'] && charAtIs s 1 (charBetween '1' '5')) ||
  (s.take 1 = ['2'] && charAtIs s 1 (charBetween '2' '7'))

/-- `/^3[47]/`. -/
def matchesAmex (s : List Char) : Bool :=
  s.take 1 = ['3'] && charAtIs s 1 (fun c => c = '4' || c = '7')

/-- `/^6011/`, `/^64[4-9]/` or `/^65/`. -/
def matchesDiscover (s : List Char) : Bool :=
  s.take 4 = "6011".toList ||
  (s.take 2 = "64".toList && charAtIs s 2 (charBetween '4' '9')) ||
  s.take 2 = "65".toList

/-- `/^35[2-8][8-9]/`. -/
def matchesJcb (s : List Char) : Bool :=
  s.take 2 = "35".toList && charAtIs s 2 (charBetween '2' '8') &&
    charAtIs s 3 (charBetween '8' '9')

/-- `/^3[0689]/`. -/
def matchesDiners (s : List Char) : Bool :=
  s.take 1 = ['3'] && charAtIs s 1 (fun c => c = '0' || c = '6' || c = '8' || c = '9')

/-- `detectCardType`: first matching entry of `CARD_TYPES` in iteration
order wins. -/
def detectCardType (s : List Char) : Option CardInfo :=
  if matchesVisa s then some (cardInfo .visa)
  else if matchesMastercard s then some (cardInfo .mastercard)
  else if matchesAmex s then some (cardInfo .amex)
  else if matchesDiscover s then some (cardInfo .discover)
  else if matchesJcb s then some (cardInfo .jcb)
  else if matchesDiners s then some (cardInfo .diners)
  else none

/-- `cleanInput`: remove `/[\s\-]/g`. -/
def cleanInput (s : List Char) : List Char :=
  s.filter (fun c => !(isWsChar c || c = '-'))

/-- `formatCardNumber`: 4-6-5 groups for 15 digits, 4-6-4 for 14,
otherwise groups of 4 (`replace(/(\d{4})/g, '$1 ').trim()`). -/
def formatCardNumber (s : List Char) : List Char :=
  if s.length = 15 then
    s.take 4 ++ ' ' :: ((s.drop 4).take 6 ++ ' ' :: s.drop 10)
  else if s.length = 14 then
    s.take 4 ++ ' ' :: ((s.drop 4).take 6 ++ ' ' :: s.drop 10)
  else Iban.formatGroupsGo s

/-- `CreditCardService.validate` (via `validateDetailed`). -/
def validate (input : List Char) : Bool :=
  let c := cleanInput input
  if c = [] then false
  else if ¬ c.all isDigitChar then false
  else
    match detectCardType c with
    | none => false
    | some info => info.lengths.contains c.length && validateLuhn c

/-- `CreditCardService.complete`; the while-loop padding draws from the
digit stream `rnd`. -/
def complete (input : List Char) (rnd : Nat → Fin 10) :
    Except String (List Char) :=
  let c := cleanInput input
  if c = [] ∨ c.length < 4 then .error "En az 4 haneli başlangıç gereklidir"
  else
    match detectCardType c with
    | none => .error "Kredi kartı türü tespit edilemedi"
    | some info =>
      let target := info.lengths.headD 0
      if target ≤ c.length then .error "Kredi kartı numarası zaten tamamlanmış"
      else
        let completed := c ++ padDigits rnd (target - 1 - c.length)
        .ok (formatCardNumber
          (completed ++ [digitChar (calculateLuhnCheckDigit completed)]))

/-- `generateNumberForPattern` is dispatched on `patterns[0]` of the
chosen network; this predicate records exactly which leading prefixes
that dispatch can produce for each network. -/
def genPrefixOk : CardKind → List Char → Bool
  | .visa, p => p = ['4']
  | .mastercard, p =>
    match p with
    | ['5', c] => charBetween '1' '5' c
    | _ => false
  | .amex, p => p = "34".toList || p = "37".toList
  | .discover, p => p = "6011".toList
  | .jcb, p =>
    match p with
    | ['3', '5', c, d] => charBetween '2' '8' c && charBetween '8' '9' d
    | _ => false
  | .diners, p =>
    match p with
    | ['3', c] => c = '0' || c = '6' || c = '8' || c = '9'
    | _ => false

/-- `CreditCardService.generate` / `generateWithOptions` after the
network `k` and the pattern-specific prefix have been drawn: pad to
`lengths[0] - 1` digits, truncate, append the Luhn check digit, format. -/
def generate (k : CardKind) (pfx : List Char) (rnd : Nat → Fin 10) :
    List Char :=
  let target := (cardInfo k).lengths.headD 0
  let cardNumber :=
    if pfx.length < target - 1 then pfx ++ padDigits rnd (target - 1 - pfx.length)
    else pfx
  let payload := cardNumber.take (target - 1)
  formatCardNumber (payload ++ [digitChar (calculateLuhnCheckDigit payload)])

end CreditCard

/-! ## ImeiService -/

namespace Imei

/-- `ImeiService.COMMON_TACS`. -/
def COMMON_TACS : List (List Char) :=
  ["01215200".toList, "01215300".toList, "01215400".toList, "01332100".toList,
   "01332200".toList, "35238708".toList, "35238709".toList, "35238710".toList,
   "35999205".toList, "35999206".toList, "86446003".toList, "86446103".toList,
   "86446203".toList, "35316409".toList, "35316410".toList, "86585403".toList,
   "86585404".toList, "86585405".toList, "86585503".toList, "86585504".toList,
   "35161511".toList, "35161512".toList, "35161513".toList, "35161514".toList,
   "35161515".toList, "35925806".toList, "35925807".toList, "35925808".toList,
   "35925809".toList, "35925810".toList, "01180000".toList, "01180100".toList,
   "01180200".toList, "35209900".toList, "35209901".toList, "35403906".toList,
   "35403907".toList, "35403908".toList, "35403909".toList, "35403910".toList,
   "86177103".toList, "86177104".toList, "86177105".toList, "86177106".toList,
   "86177107".toList, "35685302".toList, "35685303".toList, "35685304".toList,
   "35685305".toList, "35685306".toList]

/-- `cleanInput`: remove `/[\s\-\.]/g`. -/
def cleanInput (s : List Char) : List Char :=
  s.filter (fun c => !(isWsChar c || c = '-' || c = '.'))

/-- `formatImei`: `replace(/(\d{2})(\d{6})(\d{6})(\d{1})/, …)` — groups
2-6-6-1 when the string is 15 digits, otherwise unchanged. -/
def formatImei (s : List Char) : List Char :=
  if s.length = 15 ∧ s.all isDigitChar then
    s.take 2 ++ ' ' :: ((s.drop 2).take 6 ++ ' ' :: ((s.drop 8).take 6 ++ ' ' :: s.drop 14))
  else s

/-- `ImeiService.validate` (via `validateDetailed`). -/
def validate (input : List Char) : Bool :=
  let c := cleanInput input
  if c = [] then false
  else if ¬ (c.length = 15 ∧ c.all isDigitChar) then false
  else validateLuhn c

/-- `ImeiService.complete`; the padding loop draws from `rnd`. -/
def complete (input : List Char) (rnd : Nat → Fin 10) :
    Except String (List Char) :=
  let c := cleanInput input
  if c = [] ∨ c.length < 8 then .error "En az 8 haneli TAC kodu gereklidir"
  else if 15 ≤ c.length then .error "IMEI numarası zaten tamamlanmış"
  else
    let completed := c ++ padDigits rnd (14 - c.length)
    .ok (formatImei (completed ++ [digitChar (calculateLuhnCheckDigit completed)]))

/-- `ImeiService.generate`, parameterised by the TAC drawn from
`COMMON_TACS` and the random 6-digit serial number. -/
def generate (tac serial : List Char) : List Char :=
  let payload := tac ++ serial
  formatImei (payload ++ [digitChar (calculateLuhnCheckDigit payload)])

end Imei

/-! ## IsbnService -/

namespace Isbn

/-- `IsbnService.COMMON_PREFIXES_ISBN13`. -/
def COMMON_PREFIXES_ISBN13 : List (List Char) := ["978".toList, "979".toList]

/-- `IsbnService.COMMON_GROUPS`. -/
def COMMON_GROUPS : List (List Char) :=
  ["0".toList, "1".toList, "2".toList, "3".toList, "4".toList, "5".toList,
   "7".toList, "9".toList]

/-- `cleanInput`: remove `/[-\s]/g` and uppercase. -/
def cleanInput (s : List Char) : List Char :=
  (s.filter (fun c => !(c = '-' || isWsChar c))).map jsUpper

/-- `s.startsWith('978') || s.startsWith('979')`. -/
def startsWith978or979 (s : List Char) : Bool :=
  s.take 3 = "978".toList || s.take 3 = "979".toList

/-- The weighted-sum loop of ISBN-10: weights 10 down to 2 over the
first 9 characters. -/
def isbn10SumGo : Nat → List Char → Nat
  | _, [] => 0
  | w, c :: rest => w * digitVal c + isbn10SumGo (w - 1) rest

/-- `sum` of `validateIsbn10`/`completeAsIsbn10`: `Σ (10-i)·digit[i]`
for the first 9 characters. -/
def isbn10Sum (s : List Char) : Nat := isbn10SumGo 10 (s.take 9)

/-- `calculateIsbn10CheckDigit`: `(11 - sum % 11) % 11`, rendered `'X'`
for the value 10. -/
def isbn10CheckChar (sum : Nat) : Char :=
  if (11 - sum % 11) % 11 = 10 then 'X' else digitChar ((11 - sum % 11) % 11)

/-- The alternating 1/3-weighted sum of ISBN-13 over the first 12
characters (`even` is true at even 0-based indices, which get weight 1). -/
def isbn13SumGo : Bool → List Char → Nat
  | _, [] => 0
  | even, c :: rest =>
    (if even then digitVal c else 3 * digitVal c) + isbn13SumGo (!even) rest

/-- `calculateIsbn13CheckDigit` over the first 12 characters. -/
def isbn13CheckDigit (s : List Char) : Nat :=
  (10 - isbn13SumGo true (s.take 12) % 10) % 10

/-- `validateIsbn10`.  JS computes `parseInt` of each of the first 9
characters: an `'X'` there makes the sum `NaN` and every comparison
with `NaN` false, hence the explicit all-digit test on the first 9. -/
def validateIsbn10 (isbn : List Char) : Bool :=
  if ¬ (isbn.length = 10 ∧ isbn.all (fun c => isDigitChar c || c = 'X')) then
    false
  else if ¬ (isbn.take 9).all isDigitChar then false
  else
    match isbn.drop 9 with
    | [cd] => cd = isbn10CheckChar (isbn10Sum isbn)
    | _ => false

/-- `validateIsbn13`. -/
def validateIsbn13 (isbn : List Char) : Bool :=
  if ¬ (isbn.length = 13 ∧ isbn.all isDigitChar) then false
  else if ¬ startsWith978or979 isbn then false
  else
    match isbn.drop 12 with
    | [cd] => digitVal cd = isbn13CheckDigit isbn
    | _ => false

/-- `IsbnService.validate`: route by cleaned length. -/
def validate (input : List Char) : Bool :=
  let c := cleanInput input
  if c.length = 10 then validateIsbn10 c
  else if c.length = 13 then validateIsbn13 c
  else false

/-- `formatIsbn10`: hyphens at 1-3-5-1, pass-through otherwise. -/
def formatIsbn10 (isbn : List Char) : List Char :=
  if isbn.length ≠ 10 then isbn
  else isbn.take 1 ++ '-' :: ((isbn.drop 1).take 3 ++ '-' ::
    ((isbn.drop 4).take 5 ++ '-' :: isbn.drop 9))

/-- `formatIsbn13`: hyphens at 3-1-3-5-1, pass-through otherwise. -/
def formatIsbn13 (isbn : List Char) : List Char :=
  if isbn.length ≠ 13 then isbn
  else isbn.take 3 ++ '-' :: ((isbn.drop 3).take 1 ++ '-' ::
    ((isbn.drop 4).take 3 ++ '-' :: ((isbn.drop 7).take 5 ++ '-' :: isbn.drop 12)))

/-- `completeAsIsbn10`; random padding drawn from `rnd`. -/
def completeAsIsbn10 (c : List Char) (rnd : Nat → Fin 10) : List Char :=
  if 9 ≤ c.length then
    let padded := padEndList c 9 '0'
    formatIsbn10 (padded ++ [isbn10CheckChar (isbn10Sum padded)])
  else
    let isbn9 := c ++ padDigits rnd (9 - c.length)
    formatIsbn10 (isbn9 ++ [isbn10CheckChar (isbn10Sum isbn9)])

/-- `completeAsIsbn13`: silently prepend `978` when the partial lacks a
`978`/`979` prefix, pad (or truncate) to 12 digits, append the check
digit. -/
def completeAsIsbn13 (c : List Char) (rnd : Nat → Fin 10) : List Char :=
  let workingPartial := if startsWith978or979 c then c else '9' :: '7' :: '8' :: c
  if 12 ≤ workingPartial.length then
    let isbn12 := workingPartial.take 12
    formatIsbn13 (isbn12 ++ [digitChar (isbn13CheckDigit isbn12)])
  else
    let isbn12 := workingPartial ++ padDigits rnd (12 - workingPartial.length)
    formatIsbn13 (isbn12 ++ [digitChar (isbn13CheckDigit isbn12)])

/-- `IsbnService.complete`: route by cleaned length. -/
def complete (part : List Char) (rnd : Nat → Fin 10) :
    Except String (List Char) :=
  let c := cleanInput part
  if 3 ≤ c.length ∧ c.length < 10 then .ok (completeAsIsbn10 c rnd)
  else if 3 ≤ c.length ∧ c.length < 13 then .ok (completeAsIsbn13 c rnd)
  else .error "Girilen kısmi ISBN numarası tamamlanamıyor"

/-- `generateIsbn10` after a successful draw (`totalLength ≤ 9`,
otherwise the code retries): group + publisher + title, zero-padded to
9 digits, plus the check character. -/
def generateIsbn10 (grp pub title : List Char) : List Char :=
  let isbn9 := padEndList (grp ++ pub ++ title) 9 '0'
  formatIsbn10 (isbn9 ++ [isbn10CheckChar (isbn10Sum isbn9)])

/-- `generateIsbn13` after a successful draw (`totalLength ≤ 12`):
prefix + group + publisher + title, zero-padded to 12 digits, plus the
check digit. -/
def generateIsbn13 (pre grp pub title : List Char) : List Char :=
  let isbn12 := padEndList (pre ++ grp ++ pub ++ title) 12 '0'
  formatIsbn13 (isbn12 ++ [digitChar (isbn13CheckDigit isbn12)])

end Isbn

/-! ## EanService -/

namespace Ean

def COMMON_GS1_PREFIXES : List (List Char) :=
  ["000".toList, "001".toList, "002".toList, "003".toList, "004".toList, "005".toList, "006".toList, "007".toList,
   "008".toList, "009".toList, "020".toList, "021".toList, "022".toList, "023".toList, "024".toList, "025".toList,
   "026".toList, "027".toList, "028".toList, "029".toList, "030".toList, "031".toList, "032".toList, "033".toList,
   "034".toList, "035".toList, "036".toList, "037".toList, "038".toList, "039".toList, "040".toList, "041".toList,
   "042".toList, "043".toList, "044".toList, "045".toList, "046".toList, "047".toList, "048".toList, "049".toList,
   "050".toList, "051".toList, "052".toList, "053".toList, "054".toList, "055".toList, "056".toList, "057".toList,
   "058".toList, "059".toList, "060".toList, "061".toList, "062".toList, "063".toList, "064".toList, "065".toList,
   "066".toList, "067".toList, "068".toList, "069".toList, "070".toList, "071".toList, "072".toList, "073".toList,
   "074".toList, "075".toList, "076".toList, "077".toList, "078".toList, "079".toList, "080".toList, "081".toList,
   "082".toList, "083".toList, "084".toList, "085".toList, "086".toList, "087".toList, "088".toList, "089".toList,
   "090".toList, "091".toList, "092".toList, "093".toList, "094".toList, "095".toList, "096".toList, "097".toList,
   "098".toList, "099".toList, "100".toList, "101".toList, "102".toList, "103".toList, "104".toList, "105".toList,
   "106".toList, "107".toList, "108".toList, "109".toList, "200".toList, "201".toList, "202".toList, "203".toList,
   "204".toList, "205".toList, "206".toList, "207".toList, "208".toList, "209".toList, "300".toList, "301".toList,
   "302".toList, "303".toList, "304".toList, "305".toList, "306".toList, "307".toList, "308".toList, "309".toList,
   "380".toList, "383".toList, "385".toList, "387".toList, "400".toList, "401".toList, "402".toList, "403".toList,
   "450".toList, "451".toList, "452".toList, "453".toList, "454".toList, "455".toList, "456".toList, "457".toList,
   "458".toList, "459".toList, "460".toList, "461".toList, "462".toList, "463".toList, "464".toList, "465".toList,
   "466".toList, "467".toList, "468".toList, "469".toList, "470".toList, "471".toList, "474".toList, "475".toList,
   "476".toList, "477".toList, "478".toList, "479".toList, "480".toList, "481".toList, "482".toList, "484".toList,
   "485".toList, "486".toList, "487".toList, "488".toList, "489".toList, "490".toList, "491".toList, "492".toList,
   "493".toList, "494".toList, "495".toList, "496".toList, "497".toList, "498".toList, "499".toList, "500".toList,
   "501".toList, "502".toList, "503".toList, "504".toList, "505".toList, "506".toList, "507".toList, "508".toList,
   "509".toList, "520".toList, "521".toList, "528".toList, "529".toList, "530".toList, "531".toList, "535".toList,
   "539".toList, "540".toList, "541".toList, "542".toList, "543".toList, "544".toList, "545".toList, "546".toList,
   "547".toList, "548".toList, "549".toList, "560".toList, "569".toList, "570".toList, "571".toList, "572".toList,
   "573".toList, "574".toList, "575".toList, "576".toList, "577".toList, "578".toList, "579".toList, "590".toList,
   "594".toList, "599".toList, "600".toList, "601".toList, "603".toList, "604".toList, "608".toList, "609".toList,
   "611".toList, "613".toList, "615".toList, "616".toList, "618".toList, "619".toList, "620".toList, "621".toList,
   "622".toList, "624".toList, "625".toList, "626".toList, "627".toList, "628".toList, "629".toList, "640".toList,
   "641".toList, "642".toList, "643".toList, "644".toList, "645".toList, "646".toList, "647".toList, "648".toList,
   "649".toList, "690".toList, "691".toList, "692".toList, "693".toList, "694".toList, "695".toList, "696".toList,
   "697".toList, "698".toList, "699".toList, "700".toList, "701".toList, "702".toList, "703".toList, "704".toList,
   "705".toList, "706".toList, "707".toList, "708".toList, "709".toList, "729".toList, "730".toList, "731".toList,
   "732".toList, "733".toList, "734".toList, "735".toList, "736".toList, "737".toList, "738".toList, "739".toList,
   "740".toList, "741".toList, "742".toList, "743".toList, "744".toList, "745".toList, "746".toList, "750".toList,
   "754".toList, "755".toList, "759".toList, "760".toList, "761".toList, "762".toList, "763".toList, "764".toList,
   "765".toList, "766".toList, "767".toList, "768".toList, "769".toList, "770".toList, "771".toList, "773".toList,
   "775".toList, "777".toList, "778".toList, "779".toList, "780".toList, "784".toList, "786".toList, "789".toList,
   "790".toList, "800".toList, "801".toList, "802".toList, "803".toList, "804".toList, "805".toList, "806".toList,
   "807".toList, "808".toList, "809".toList, "840".toList, "841".toList, "842".toList, "843".toList, "844".toList,
   "845".toList, "846".toList, "847".toList, "848".toList, "849".toList, "850".toList, "858".toList, "859".toList,
   "860".toList, "865".toList, "867".toList, "868".toList, "869".toList, "870".toList, "871".toList, "872".toList,
   "873".toList, "874".toList, "875".toList, "876".toList, "877".toList, "878".toList, "879".toList, "880".toList,
   "884".toList, "885".toList, "888".toList, "890".toList, "893".toList, "896".toList, "899".toList, "900".toList,
   "901".toList, "902".toList, "903".toList, "904".toList, "905".toList, "906".toList, "907".toList, "908".toList,
   "909".toList, "930".toList, "931".toList, "932".toList, "933".toList, "934".toList, "935".toList, "936".toList,
   "937".toList, "938".toList, "939".toList, "940".toList, "941".toList, "942".toList, "943".toList, "944".toList,
   "945".toList, "946".toList, "947".toList, "948".toList, "949".toList, "950".toList, "951".toList, "955".toList,
   "958".toList, "977".toList, "978".toList, "979".toList, "980".toList, "981".toList, "982".toList, "990".toList,
   "991".toList, "992".toList, "993".toList, "994".toList, "995".toList, "996".toList, "997".toList, "998".toList,
   "999".toList]

/-- `cleanInput`: remove `/[\s\-]/g`. -/
def cleanInput (s : List Char) : List Char :=
  s.filter (fun c => !(isWsChar c || c = '-'))

/-- The alternating 3/1-weighted sum over the data digits, weights taken
from the right (the rightmost data digit has weight 3); the list passed
here is already reversed. -/
def eanSumRev : List Char → Bool → Nat
  | [], _ => 0
  | c :: rest, w3 =>
    (if w3 then 3 * digitVal c else digitVal c) + eanSumRev rest (!w3)

/-- The weighted sum of `validateChecksum`/`calculateChecksum`:
`weight = (dataDigits.length - i) % 2 == 1 ? 3 : 1`. -/
def eanSum (ds : List Char) : Nat := eanSumRev ds.reverse true

/-- `calculateChecksum`: `(10 - sum % 10) % 10` as a digit. -/
def calculateChecksum (ds : List Char) : Nat := (10 - eanSum ds % 10) % 10

/-- `validateChecksum code length` (always called with
`length = code.length`): split off the final check digit and compare. -/
def validateChecksumOk (code : List Char) : Bool :=
  let ds := code.take (code.length - 1)
  match code.drop (code.length - 1) with
  | [cd] => digitVal cd = calculateChecksum ds
  | _ => false

/-- `EanService.validate`: route by cleaned length (13, 12 or 8), each
requiring all digits plus the shared checksum. -/
def validate (input : List Char) : Bool :=
  let c := cleanInput input
  if c.length = 13 then c.all isDigitChar && validateChecksumOk c
  else if c.length = 12 then c.all isDigitChar && validateChecksumOk c
  else if c.length = 8 then c.all isDigitChar && validateChecksumOk c
  else false

/-- `formatEan13`: groups 1-6-6, pass-through otherwise. -/
def formatEan13 (ean : List Char) : List Char :=
  if ean.length ≠ 13 then ean
  else ean.take 1 ++ ' ' :: ((ean.drop 1).take 6 ++ ' ' :: ean.drop 7)

/-- `formatUpcA`: groups 1-5-5-1, pass-through otherwise. -/
def formatUpcA (upc : List Char) : List Char :=
  if upc.length ≠ 12 then upc
  else upc.take 1 ++ ' ' :: ((upc.drop 1).take 5 ++ ' ' ::
    ((upc.drop 6).take 5 ++ ' ' :: upc.drop 11))

/-- `formatEan8`: groups 4-4, pass-through otherwise. -/
def formatEan8 (ean : List Char) : List Char :=
  if ean.length ≠ 8 then ean
  else ean.take 4 ++ ' ' :: ean.drop 4

/-- Pad-or-truncate a partial to `n` data digits and append the check
digit: the common body of the three `completeAs*` methods. -/
def completeTo (n : Nat) (c : List Char) (rnd : Nat → Fin 10) : List Char :=
  if n ≤ c.length then
    let ds := c.take n
    ds ++ [digitChar (calculateChecksum ds)]
  else
    let ds := c ++ padDigits rnd (n - c.length)
    ds ++ [digitChar (calculateChecksum ds)]

/-- `completeAsEan13` (12 data digits). -/
def completeAsEan13 (c : List Char) (rnd : Nat → Fin 10) : List Char :=
  formatEan13 (completeTo 12 c rnd)

/-- `completeAsUpcA` (11 data digits). -/
def completeAsUpcA (c : List Char) (rnd : Nat → Fin 10) : List Char :=
  formatUpcA (completeTo 11 c rnd)

/-- `completeAsEan8` (7 data digits). -/
def completeAsEan8 (c : List Char) (rnd : Nat → Fin 10) : List Char :=
  formatEan8 (completeTo 7 c rnd)

/-- `EanService.complete`: route by cleaned length.  The third branch
(`3 ≤ length < 12` → UPC-A) is kept exactly as in the source even
though the first two branches already cover its range. -/
def complete (part : List Char) (rnd : Nat → Fin 10) :
    Except String (List Char) :=
  let c := cleanInput part
  if 3 ≤ c.length ∧ c.length < 7 then .ok (completeAsEan8 c rnd)
  else if 7 ≤ c.length ∧ c.length < 12 then .ok (completeAsEan13 c rnd)
  else if 3 ≤ c.length ∧ c.length < 12 then .ok (completeAsUpcA c rnd)
  else .error "Girilen kısmi EAN/UPC numarası tamamlanamıyor"

/-- `padTrunc n s rnd0`: `s` padded with random digits to length `n`, or
truncated to length `n` (the `if totalLength < n … else if > n` body of
the generators; the padding there draws fresh random digits, modelled by
the stream `rnd`). -/
def padTrunc (n : Nat) (s : List Char) (rnd : Nat → Fin 10) : List Char :=
  if s.length < n then s ++ padDigits rnd (n - s.length) else s.take n

/-- `generateEan13` after the GS1 prefix and the random component
lengths have been drawn. -/
def generateEan13 (pre manuf prod : List Char) (rnd : Nat → Fin 10) :
    List Char :=
  let ds := padTrunc 12 (pre ++ manuf ++ prod) rnd
  formatEan13 (ds ++ [digitChar (calculateChecksum ds)])

/-- `generateUpcA`: first digit plus 5+5 random digits. -/
def generateUpcA (first : Fin 10) (manuf prod : List Char) : List Char :=
  let ds := digitChar first :: (manuf ++ prod)
  formatUpcA (ds ++ [digitChar (calculateChecksum ds)])

/-- `generateEan8` after the random components have been drawn. -/
def generateEan8 (country manuf prod : List Char) (rnd : Nat → Fin 10) :
    List Char :=
  let ds := padTrunc 7 (country ++ manuf ++ prod) rnd
  formatEan8 (ds ++ [digitChar (calculateChecksum ds)])

end Ean

/-! ## ServiceFactory detection engine -/

/-- `ServiceType`. -/
inductive ServiceType
  | tckn | vkn | iban | creditCard | isbn | ean | imei
deriving DecidableEq, Repr

namespace Factory

/-- The credit-card leading patterns tested by
`detectPossibleServiceTypes` (note its JCB pattern is `/^35[2-8]/`,
shorter than the service's own). -/
def cardPattern (s : List Char) : Bool :=
  CreditCard.matchesVisa s || CreditCard.matchesMastercard s ||
  CreditCard.matchesAmex s || CreditCard.matchesDiscover s ||
  (s.take 2 = "35".toList && CreditCard.charAtIs s 2 (CreditCard.charBetween '2' '8')) ||
  CreditCard.matchesDiners s

/-- `/^[\dX]+$/.test(s)`. -/
def digitsOrX (s : List Char) : Bool :=
  s ≠ [] && s.all (fun c => isDigitChar c || c = 'X')

/-- `/^\d+$/.test(s)`. -/
def allDigits1 (s : List Char) : Bool :=
  s ≠ [] && s.all isDigitChar

/-- `ServiceFactory.detectPossibleServiceTypes`. -/
def detectPossibleServiceTypes (input : List Char) : List ServiceType :=
  let c := (input.filter (fun ch => !isWsChar ch)).map jsUpper
  if Iban.matchTR24 c || Iban.startsWithTR c then [ServiceType.iban]
  else
    let isbnCands : List ServiceType :=
      if digitsOrX c then
        if c.length = 10 then [ServiceType.isbn]
        else if c.length = 13 ∧ Isbn.startsWith978or979 c then [ServiceType.isbn]
        else []
      else []
    if ¬ allDigits1 c then isbnCands
    else
      let lengthCands : List ServiceType :=
        if c.length = 8 then [ServiceType.ean]
        else if c.length = 10 then
          if ServiceType.vkn ∈ isbnCands then [] else [ServiceType.vkn]
        else if c.length = 11 then [ServiceType.tckn]
        else if c.length = 12 then [ServiceType.ean]
        else if c.length = 13 then [ServiceType.ean]
        else if c.length = 15 then [ServiceType.imei]
        else []
      let ccCands : List ServiceType :=
        if 13 ≤ c.length ∧ c.length ≤ 19 ∧ cardPattern c then
          [ServiceType.creditCard]
        else []
      isbnCands ++ lengthCands ++ ccCands

/-- `ServiceFactory.detectServiceType`. -/
def detectServiceType (input : List Char) : Option ServiceType :=
  match detectPossibleServiceTypes input with
  | [t] => some t
  | _ => none

end Factory

/-! ## `validate` on null/undefined input

JavaScript semantics of each service's `validate` when called with
`null` or `undefined` instead of a string (`none` below):

* `TcknService`/`VknService` first coerce with `String(value)`
  (`"null"`/`"undefined"`), then validate that string;
* `IbanService.validate` wraps its body in `try/catch` and returns
  `false` when `value.replace` throws a `TypeError`;
* `CreditCardService`, `ImeiService`, `IsbnService` and `EanService`
  call `input.replace` inside `cleanInput` with no `try/catch` on the
  `validate` path, so the `TypeError` escapes (modelled as `.error ()`).
-/

/-- `TcknService.validate` including the `String(value)` coercion. -/
def tcknValidateJs : Option (List Char) → Except Unit Bool
  | none => .ok (Tckn.validate "null".toList)
  | some s => .ok (Tckn.validate s)

/-- `VknService.validate` including the `String(value)` coercion. -/
def vknValidateJs : Option (List Char) → Except Unit Bool
  | none => .ok (Vkn.validate "null".toList)
  | some s => .ok (Vkn.validate s)

/-- `IbanService.validate` with its `try/catch` (catch returns false). -/
def ibanValidateJs : Option (List Char) → Except Unit Bool
  | none => .ok false
  | some s => .ok (Iban.validate s)

/-- `CreditCardService.validate`: uncaught `TypeError` on null. -/
def creditCardValidateJs : Option (List Char) → Except Unit Bool
  | none => .error ()
  | some s => .ok (CreditCard.validate s)

/-- `ImeiService.validate`: uncaught `TypeError` on null. -/
def imeiValidateJs : Option (List Char) → Except Unit Bool
  | none => .error ()
  | some s => .ok (Imei.validate s)

/-- `IsbnService.validate`: uncaught `TypeError` on null. -/
def isbnValidateJs : Option (List Char) → Except Unit Bool
  | none => .error ()
  | some s => .ok (Isbn.validate s)

/-- `EanService.validate`: uncaught `TypeError` on null. -/
def eanValidateJs : Option (List Char) → Except Unit Bool
  | none => .error ()
  | some s => .ok (Ean.validate s)

/-! ## Specification-side definitions

These restate checksum rules in the closed form used by the
specification text, to be proved equal to the loop-based definitions
translated from the source. -/

namespace Iban

/-- The IBAN acceptance condition as the specification words it:
`TR` + 24 digits, reserved digit (position 10) zero, and the true
(big-integer) mod-97 of the rearranged, letter-converted string equal
to 1. -/
def validateSpec (s : List Char) : Bool :=
  let c := clean s
  matchTR24 c && (c.drop 9).take 1 = ['0'] &&
    digitsToNat (convertLettersToNumbers (c.drop 4 ++ c.take 4)) % 97 = 1

end Iban

namespace Tckn

/-- `t1` as the specification words it: sum of the digits at 1-indexed
positions 1, 3, 5, 7, 9. -/
def t1Spec (pfx : List Char) : Nat :=
  digitVal (pfx.getD 0 '0') + digitVal (pfx.getD 2 '0') +
  digitVal (pfx.getD 4 '0') + digitVal (pfx.getD 6 '0') +
  digitVal (pfx.getD 8 '0')

/-- `t2` as the specification words it: sum of the digits at 1-indexed
positions 2, 4, 6, 8. -/
def t2Spec (pfx : List Char) : Nat :=
  digitVal (pfx.getD 1 '0') + digitVal (pfx.getD 3 '0') +
  digitVal (pfx.getD 5 '0') + digitVal (pfx.getD 7 '0')

/-- Check digit 10 per the specification formula. -/
def c10Spec (pfx : List Char) : Nat :=
  (10 - (t1Spec pfx * 3 + t2Spec pfx) % 10) % 10

/-- Check digit 11 per the specification formula. -/
def c11Spec (pfx : List Char) : Nat :=
  (10 - ((t2Spec pfx + c10Spec pfx) * 3 + t1Spec pfx) % 10) % 10

end Tckn

namespace Vkn

/-- The VKN check digit as the specification words it: the closed sum
of the `q` contributions of the nine digits. -/
def checkDigitSpec (pfx : List Char) : Nat :=
  (10 - (q (digitVal (pfx.getD 0 '0')) 1 + q (digitVal (pfx.getD 1 '0')) 2 +
         q (digitVal (pfx.getD 2 '0')) 3 + q (digitVal (pfx.getD 3 '0')) 4 +
         q (digitVal (pfx.getD 4 '0')) 5 + q (digitVal (pfx.getD 5 '0')) 6 +
         q (digitVal (pfx.getD 6 '0')) 7 + q (digitVal (pfx.getD 7 '0')) 8 +
         q (digitVal (pfx.getD 8 '0')) 9) % 10) % 10

end Vkn

/-! ## Basic lemmas about characters and digit strings -/

theorem digitVal_digitChar {n : Nat} (h : n < 10) :
    digitVal (digitChar n) = n := by
  interval_cases n <;> rfl

theorem isDigitChar_digitChar {n : Nat} (h : n < 10) :
    isDigitChar (digitChar n) = true := by
  interval_cases n <;> rfl

theorem toNat_digitChar_lt {n : Nat} (h : n < 10) :
    (digitChar n).toNat < 97 := by
  interval_cases n <;> decide

theorem toNat_lt_of_isDigitChar {c : Char} (h : isDigitChar c = true) :
    c.toNat < 97 := by
  simp only [isDigitChar, Bool.and_eq_true, decide_eq_true_eq] at h
  omega

theorem jsUpper_eq_self {c : Char} (h : c.toNat < 97) : jsUpper c = c := by
  unfold jsUpper
  rw [if_neg]
  omega

theorem padDigits_length (rnd : Nat → Fin 10) (n : Nat) :
    (padDigits rnd n).length = n := by
  simp [padDigits]

theorem padDigits_all_digits (rnd : Nat → Fin 10) (n : Nat) :
    (padDigits rnd n).all isDigitChar = true := by
  simp only [padDigits, List.all_eq_true]
  intro x hx
  obtain ⟨i, _, rfl⟩ := List.mem_map.mp hx
  exact isDigitChar_digitChar (rnd i).isLt

theorem digitsToNat_from (acc : Nat) (b : List Char) :
    b.foldl (fun a c => a * 10 + digitVal c) acc
      = acc * 10 ^ b.length + digitsToNat b := by
  induction b generalizing acc with
  | nil => simp [digitsToNat]
  | cons c t ih =>
    simp only [List.foldl_cons, List.length_cons]
    rw [ih (acc * 10 + digitVal c)]
    have h2 : digitsToNat (c :: t) = digitVal c * 10 ^ t.length + digitsToNat t := by
      simp only [digitsToNat, List.foldl_cons]
      rw [ih (0 * 10 + digitVal c)]
      simp only [digitsToNat]
      ring
    rw [h2]
    ring

theorem digitsToNat_append (a b : List Char) :
    digitsToNat (a ++ b) = digitsToNat a * 10 ^ b.length + digitsToNat b := by
  simp only [digitsToNat, List.foldl_append]
  exact digitsToNat_from _ b

/-! ## Luhn check-digit round trip -/

theorem luhn_check_append (p : List Char) :
    validateLuhn (p ++ [digitChar (calculateLuhnCheckDigit p)]) = true := by
  have hlt : calculateLuhnCheckDigit p < 10 := Nat.mod_lt _ (by norm_num)
  have hstep : luhnSumRev ((p ++ [digitChar (calculateLuhnCheckDigit p)]).reverse) false
      = calculateLuhnCheckDigit p + luhnSumRev p.reverse true := by
    rw [List.reverse_append]
    simp [luhnSumRev, digitVal_digitChar hlt]
  unfold validateLuhn
  rw [hstep]
  unfold calculateLuhnCheckDigit
  set S := luhnSumRev p.reverse true
  simp only [decide_eq_true_eq]
  omega

/-! ## EAN checksum round trip -/

theorem ean_check_append (ds : List Char) :
    Ean.validateChecksumOk (ds ++ [digitChar (Ean.calculateChecksum ds)]) = true := by
  unfold Ean.validateChecksumOk
  have hl : (ds ++ [digitChar (Ean.calculateChecksum ds)]).length - 1 = ds.length := by
    simp
  rw [hl]
  rw [List.take_left, List.drop_left]
  have hlt : Ean.calculateChecksum ds < 10 := Nat.mod_lt _ (by norm_num)
  simp [digitVal_digitChar hlt]

/-! ## Correctness of the piece-wise mod-97 computation -/

theorem mod97_go_eq_aux (n : Nat) :
    ∀ (r : Nat) (s : List Char), r < 97 → s.length ≤ n →
      Iban.calculateMod97Go r s = (r * 10 ^ s.length + digitsToNat s) % 97 := by
  induction n with
  | zero =>
    intro r s hr hs
    have hnil : s = [] := List.eq_nil_of_length_eq_zero (Nat.le_zero.mp hs)
    subst hnil
    simp [Iban.calculateMod97Go, digitsToNat, Nat.mod_eq_of_lt hr]
  | succ n ih =>
    intro r s hr hs
    match s with
    | [] => simp [Iban.calculateMod97Go, digitsToNat, Nat.mod_eq_of_lt hr]
    | c :: rest =>
      rw [Iban.calculateMod97Go]
      have hlen : ((c :: rest).drop 7).length ≤ n := by
        simp only [List.length_cons] at hs
        simp only [List.length_drop, List.length_cons]
        omega
      rw [ih _ _ (Nat.mod_lt _ (by norm_num)) hlen]
      have hsplit : (c :: rest) = (c :: rest).take 7 ++ (c :: rest).drop 7 :=
        (List.take_append_drop 7 (c :: rest)).symm
      conv_rhs => rw [hsplit]
      rw [digitsToNat_append, List.length_append]
      have hmod : ∀ X Y Z : Nat, (X % 97 * Y + Z) % 97 = (X * Y + Z) % 97 :=
        fun X Y Z => ((Nat.mod_modEq X 97).mul_right Y).add_right Z
      rw [hmod]
      congr 1
      ring

theorem calculateMod97_eq (s : List Char) :
    Iban.calculateMod97 s = digitsToNat s % 97 := by
  unfold Iban.calculateMod97
  rw [mod97_go_eq_aux s.length 0 s (by norm_num) le_rfl]
  simp

/-! ## Cleaning a formatted string recovers the raw string -/

theorem filter_formatGroupsGo_aux (q : Char → Bool) (hq : q ' ' = false)
    (n : Nat) :
    ∀ s : List Char, s.length ≤ n →
      (Iban.formatGroupsGo s).filter q = s.filter q := by
  induction n with
  | zero =>
    intro s hs
    have hnil : s = [] := List.eq_nil_of_length_eq_zero (Nat.le_zero.mp hs)
    subst hnil
    simp [Iban.formatGroupsGo]
  | succ n ih =>
    intro s hs
    match s with
    | [] => simp [Iban.formatGroupsGo]
    | c :: rest =>
      rw [Iban.formatGroupsGo]
      by_cases hd : (c :: rest).drop 4 = []
      · rw [if_pos hd, List.append_nil]
        have htk : (c :: rest).take 4 = c :: rest :=
          List.take_of_length_le (by
            have := List.drop_eq_nil_iff.mp hd
            omega)
        rw [htk]
      · rw [if_neg hd, List.filter_append, List.filter_cons]
        simp only [hq, Bool.false_eq_true, if_false]
        have hlen : ((c :: rest).drop 4).length ≤ n := by
          simp only [List.length_cons] at hs
          simp only [List.length_drop, List.length_cons]
          omega
        rw [ih _ hlen, ← List.filter_append, List.take_append_drop]

theorem filter_formatGroupsGo (q : Char → Bool) (hq : q ' ' = false)
    (s : List Char) :
    (Iban.formatGroupsGo s).filter q = s.filter q :=
  filter_formatGroupsGo_aux q hq s.length s le_rfl

theorem map_jsUpper_eq_self {s : List Char} (h : ∀ c ∈ s, c.toNat < 97) :
    s.map jsUpper = s := by
  induction s with
  | nil => rfl
  | cons c t ih =>
    simp only [List.map_cons, List.cons.injEq]
    exact ⟨jsUpper_eq_self (h c (List.mem_cons_self c t)), ih (fun x hx => h x (List.mem_cons_of_mem _ hx))⟩

theorem filter_eq_self_of_all {q : Char → Bool} {s : List Char}
    (h : ∀ c ∈ s, q c = true) : s.filter q = s :=
  List.filter_eq_self.mpr (fun c hc => h c hc)

/-! ## Anchored patterns only inspect a bounded prefix -/

theorem charAtIs_append {s : List Char} (t : List Char) {i : Nat}
    (h : i < s.length) (p : Char → Bool) :
    CreditCard.charAtIs (s ++ t) i p = CreditCard.charAtIs s i p := by
  unfold CreditCard.charAtIs
  rw [List.drop_append_of_le_length h.le]
  cases hdrop : s.drop i with
  | nil =>
    have := List.drop_eq_nil_iff.mp hdrop
    omega
  | cons c r => simp [hdrop]

theorem detectCardType_append {s : List Char} (t : List Char)
    (h : 4 ≤ s.length) :
    CreditCard.detectCardType (s ++ t) = CreditCard.detectCardType s := by
  have h1 : (1 : Nat) ≤ s.length := by omega
  have h2 : (2 : Nat) ≤ s.length := by omega
  have h4 : (4 : Nat) ≤ s.length := h
  unfold CreditCard.detectCardType CreditCard.matchesVisa
    CreditCard.matchesMastercard CreditCard.matchesAmex
    CreditCard.matchesDiscover CreditCard.matchesJcb CreditCard.matchesDiners
  rw [List.take_append_of_le_length h1, List.take_append_of_le_length h2,
    List.take_append_of_le_length h4,
    charAtIs_append t (by omega), charAtIs_append t (by omega),
    charAtIs_append t (by omega), charAtIs_append t (by omega),
    charAtIs_append t (by omega), charAtIs_append t (by omega),
    charAtIs_append t (by omega)]

/-! ## Filtering formatted output recovers the raw characters -/

theorem filter_sep_append {q : Char → Bool} {sep : Char} (hq : q sep = false)
    (a b : List Char) :
    (a ++ sep :: b).filter q = a.filter q ++ b.filter q := by
  rw [List.filter_append, List.filter_cons]
  simp [hq]

theorem cc_filter_format {q : Char → Bool} (hq : q ' ' = false)
    (s : List Char) :
    (CreditCard.formatCardNumber s).filter q = s.filter q := by
  unfold CreditCard.formatCardNumber
  by_cases h15 : s.length = 15
  · rw [if_pos h15, filter_sep_append hq, filter_sep_append hq]
    conv_rhs => rw [← List.take_append_drop 4 s, List.filter_append]
    congr 1
    conv_rhs => rw [← List.take_append_drop 6 (s.drop 4), List.filter_append]
    rw [List.drop_drop]
  · rw [if_neg h15]
    by_cases h14 : s.length = 14
    · rw [if_pos h14, filter_sep_append hq, filter_sep_append hq]
      conv_rhs => rw [← List.take_append_drop 4 s, List.filter_append]
      congr 1
      conv_rhs => rw [← List.take_append_drop 6 (s.drop 4), List.filter_append]
      rw [List.drop_drop]
    · rw [if_neg h14]
      exact filter_formatGroupsGo q hq s

theorem imei_filter_format {q : Char → Bool} (hq : q ' ' = false)
    (s : List Char) :
    (Imei.formatImei s).filter q = s.filter q := by
  unfold Imei.formatImei
  by_cases h : s.length = 15 ∧ s.all isDigitChar
  · rw [if_pos h, filter_sep_append hq, filter_sep_append hq,
      filter_sep_append hq]
    conv_rhs => rw [← List.take_append_drop 2 s, List.filter_append]
    congr 1
    conv_rhs => rw [← List.take_append_drop 6 (s.drop 2), List.filter_append]
    rw [List.drop_drop]
    congr 1
    conv_rhs => rw [← List.take_append_drop 6 (s.drop 8), List.filter_append]
    rw [List.drop_drop]
  · rw [if_neg h]

theorem isbn10_filter_format {q : Char → Bool} (hq : q '-' = false)
    (s : List Char) :
    (Isbn.formatIsbn10 s).filter q = s.filter q := by
  unfold Isbn.formatIsbn10
  by_cases h : s.length ≠ 10
  · rw [if_pos h]
  · rw [if_neg h, filter_sep_append hq, filter_sep_append hq,
      filter_sep_append hq]
    conv_rhs => rw [← List.take_append_drop 1 s, List.filter_append]
    congr 1
    conv_rhs => rw [← List.take_append_drop 3 (s.drop 1), List.filter_append]
    rw [List.drop_drop]
    congr 1
    conv_rhs => rw [← List.take_append_drop 5 (s.drop 4), List.filter_append]
    rw [List.drop_drop]

theorem isbn13_filter_format {q : Char → Bool} (hq : q '-' = false)
    (s : List Char) :
    (Isbn.formatIsbn13 s).filter q = s.filter q := by
  unfold Isbn.formatIsbn13
  by_cases h : s.length ≠ 13
  · rw [if_pos h]
  · rw [if_neg h, filter_sep_append hq, filter_sep_append hq,
      filter_sep_append hq, filter_sep_append hq]
    conv_rhs => rw [← List.take_append_drop 3 s, List.filter_append]
    congr 1
    conv_rhs => rw [← List.take_append_drop 1 (s.drop 3), List.filter_append]
    rw [List.drop_drop]
    congr 1
    conv_rhs => rw [← List.take_append_drop 3 (s.drop 4), List.filter_append]
    rw [List.drop_drop]
    congr 1
    conv_rhs => rw [← List.take_append_drop 5 (s.drop 7), List.filter_append]
    rw [List.drop_drop]

theorem ean13_filter_format {q : Char → Bool} (hq : q ' ' = false)
    (s : List Char) :
    (Ean.formatEan13 s).filter q = s.filter q := by
  unfold Ean.formatEan13
  by_cases h : s.length ≠ 13
  · rw [if_pos h]
  · rw [if_neg h, filter_sep_append hq, filter_sep_append hq]
    conv_rhs => rw [← List.take_append_drop 1 s, List.filter_append]
    congr 1
    conv_rhs => rw [← List.take_append_drop 6 (s.drop 1), List.filter_append]
    rw [List.drop_drop]

theorem upcA_filter_format {q : Char → Bool} (hq : q ' ' = false)
    (s : List Char) :
    (Ean.formatUpcA s).filter q = s.filter q := by
  unfold Ean.formatUpcA
  by_cases h : s.length ≠ 12
  · rw [if_pos h]
  · rw [if_neg h, filter_sep_append hq, filter_sep_append hq,
      filter_sep_append hq]
    conv_rhs => rw [← List.take_append_drop 1 s, List.filter_append]
    congr 1
    conv_rhs => rw [← List.take_append_drop 5 (s.drop 1), List.filter_append]
    rw [List.drop_drop]
    congr 1
    conv_rhs => rw [← List.take_append_drop 5 (s.drop 6), List.filter_append]
    rw [List.drop_drop]

theorem ean8_filter_format {q : Char → Bool} (hq : q ' ' = false)
    (s : List Char) :
    (Ean.formatEan8 s).filter q = s.filter q := by
  unfold Ean.formatEan8
  by_cases h : s.length ≠ 8
  · rw [if_pos h]
  · rw [if_neg h, filter_sep_append hq]
    conv_rhs => rw [← List.take_append_drop 4 s, List.filter_append]

theorem isPrefixOf_append (a b : List Char) :
    a.isPrefixOf (a ++ b) = true := by
  rw [List.isPrefixOf_iff_prefix]
  exact List.prefix_append a b

/-! ## ISBN check-character round trips -/

theorem isbn10CheckChar_digit_or_X (n : Nat) :
    isDigitChar (Isbn.isbn10CheckChar n) = true ∨ Isbn.isbn10CheckChar n = 'X' := by
  unfold Isbn.isbn10CheckChar
  by_cases h : (11 - n % 11) % 11 = 10
  · right
    rw [if_pos h]
  · left
    rw [if_neg h]
    exact isDigitChar_digitChar (by omega)

theorem isbn10CheckChar_lt (n : Nat) : (Isbn.isbn10CheckChar n).toNat < 97 := by
  rcases isbn10CheckChar_digit_or_X n with h | h
  · exact toNat_lt_of_isDigitChar h
  · rw [h]; decide

theorem validateIsbn10_append {ds : List Char} (h9 : ds.length = 9)
    (hd : ds.all isDigitChar = true) :
    Isbn.validateIsbn10 (ds ++ [Isbn.isbn10CheckChar (Isbn.isbn10Sum ds)]) = true := by
  set cc := Isbn.isbn10CheckChar (Isbn.isbn10Sum ds) with hcc
  have htake : (ds ++ [cc]).take 9 = ds := List.take_left' h9
  have hdrop : (ds ++ [cc]).drop 9 = [cc] := List.drop_left' h9
  have hall : ((ds ++ [cc]).all fun c => isDigitChar c || c = 'X') = true := by
    rw [List.all_append]
    simp only [Bool.and_eq_true, List.all_eq_true]
    constructor
    · intro c hc
      have := List.all_eq_true.mp hd c hc
      simp [this]
    · intro c hc
      rcases List.mem_singleton.mp hc with rfl
      rcases isbn10CheckChar_digit_or_X (Isbn.isbn10Sum ds) with h | h
      · simp [← hcc, h]
      · rw [← hcc] at h
        simp [h]
  unfold Isbn.validateIsbn10
  rw [if_neg, if_neg]
  · rw [hdrop]
    have hsum : Isbn.isbn10Sum (ds ++ [cc]) = Isbn.isbn10Sum ds := by
      unfold Isbn.isbn10Sum
      rw [htake]
      have : ds.take 9 = ds := List.take_of_length_le (by omega)
      rw [this]
    rw [hsum, ← hcc]
    simp
  · rw [htake]
    simp only [not_not]
    exact hd
  · rw [not_not]
    exact ⟨by simp [h9], hall⟩

theorem startsWith978or979_append {ds : List Char} (l : List Char)
    (h3 : 3 ≤ ds.length) (h : Isbn.startsWith978or979 ds = true) :
    Isbn.startsWith978or979 (ds ++ l) = true := by
  unfold Isbn.startsWith978or979 at h ⊢
  rw [List.take_append_of_le_length h3]
  exact h

theorem validateIsbn13_append {ds : List Char} (h12 : ds.length = 12)
    (hd : ds.all isDigitChar = true)
    (hp : Isbn.startsWith978or979 ds = true) :
    Isbn.validateIsbn13 (ds ++ [digitChar (Isbn.isbn13CheckDigit ds)]) = true := by
  have hlt : Isbn.isbn13CheckDigit ds < 10 := Nat.mod_lt _ (by norm_num)
  have hdrop : (ds ++ [digitChar (Isbn.isbn13CheckDigit ds)]).drop 12
      = [digitChar (Isbn.isbn13CheckDigit ds)] := List.drop_left' h12
  have hall : (ds ++ [digitChar (Isbn.isbn13CheckDigit ds)]).all isDigitChar = true := by
    rw [List.all_append]
    simp only [Bool.and_eq_true, List.all_eq_true]
    refine ⟨fun c hc => List.all_eq_true.mp hd c hc, fun c hc => ?_⟩
    rcases List.mem_singleton.mp hc with rfl
    exact isDigitChar_digitChar hlt
  unfold Isbn.validateIsbn13
  rw [if_neg, if_neg]
  · rw [hdrop]
    have hck : Isbn.isbn13CheckDigit (ds ++ [digitChar (Isbn.isbn13CheckDigit ds)])
        = Isbn.isbn13CheckDigit ds := by
      unfold Isbn.isbn13CheckDigit
      rw [List.take_left' h12]
      have : ds.take 12 = ds := List.take_of_length_le (by omega)
      rw [this]
    simp [hck, digitVal_digitChar hlt]
  · rw [startsWith978or979_append _ (by omega) hp]
    simp
  · rw [not_not]
    exact ⟨by simp [h12], hall⟩

/-! ## Letter conversion and IBAN cleaning -/

theorem convert_digits {s : List Char} (h : s.all isDigitChar = true) :
    Iban.convertLettersToNumbers s = s := by
  induction s with
  | nil => rfl
  | cons c t ih =>
    rw [List.all_cons, Bool.and_eq_true] at h
    have hc : c.toNat < 65 := by
      have := toNat_lt_of_isDigitChar h.1
      simp only [isDigitChar, Bool.and_eq_true, decide_eq_true_eq] at h
      omega
    unfold Iban.convertLettersToNumbers at ih ⊢
    simp only [List.flatMap_cons]
    rw [if_neg (by omega), ih h.2]
    rfl

theorem iban_clean_of_plain {x : List Char}
    (h : ∀ c ∈ x, isWsChar c = false ∧ c.toNat < 97) :
    Iban.clean x = x := by
  unfold Iban.clean
  rw [filter_eq_self_of_all (fun c hc => by simp [(h c hc).1])]
  exact map_jsUpper_eq_self (fun c hc => (h c hc).2)

theorem iban_clean_formatIban (x : List Char)
    (h : ∀ c ∈ x, isWsChar c = false ∧ c.toNat < 97) :
    Iban.clean (Iban.formatIban x) = x := by
  have hx : x.filter (fun c => !isWsChar c) = x :=
    filter_eq_self_of_all (fun c hc => by simp [(h c hc).1])
  unfold Iban.clean Iban.formatIban
  rw [filter_formatGroupsGo _ (by decide), hx, hx]
  exact map_jsUpper_eq_self (fun c hc => (h c hc).2)

theorem all_digits_plain {x : List Char} (h : x.all isDigitChar = true) :
    ∀ c ∈ x, isWsChar c = false ∧ c.toNat < 97 := by
  intro c hc
  have hd := List.all_eq_true.mp h c hc
  have hlt := toNat_lt_of_isDigitChar hd
  simp only [isDigitChar, Bool.and_eq_true, decide_eq_true_eq] at hd
  constructor
  · simp only [isWsChar, Bool.or_eq_false_iff, decide_eq_false_iff_not]
    refine ⟨⟨⟨?_, ?_⟩, ?_⟩, ?_⟩ <;> intro hEq <;> subst hEq <;> revert hd <;> decide
  · exact hlt

/-! ## Destructuring fixed-length strings -/

theorem length_nine_cases {l : List Char} (h : l.length = 9) :
    ∃ a b c d e f g h9 i, l = [a, b, c, d, e, f, g, h9, i] := by
  match l with
  | [a, b, c, d, e, f, g, h9, i] => exact ⟨a, b, c, d, e, f, g, h9, i, rfl⟩
  | [] | [_] | [_,_] | [_,_,_] | [_,_,_,_] | [_,_,_,_,_] | [_,_,_,_,_,_]
  | [_,_,_,_,_,_,_] | [_,_,_,_,_,_,_,_] => simp at h
  | _ :: _ :: _ :: _ :: _ :: _ :: _ :: _ :: _ :: _ :: _ =>
    simp only [List.length_cons] at h
    omega

/-! ## TCKN: completion produces validating output -/

theorem tckn_cd_lt (pfx : List Char) :
    (Tckn.calculateCheckDigits pfx).1 < 10 ∧ (Tckn.calculateCheckDigits pfx).2 < 10 := by
  unfold Tckn.calculateCheckDigits
  exact ⟨Nat.mod_lt _ (by norm_num), Nat.mod_lt _ (by norm_num)⟩

theorem tckn_complete_ok {pfx r : List Char} (h : Tckn.complete pfx = .ok r) :
    pfx.length = 9 ∧ pfx.all isDigitChar = true ∧ pfx.take 1 ≠ ['0'] ∧
    pfx ∉ Tckn.INVALID_PREFIXES ∧
    r = pfx ++ [digitChar (Tckn.calculateCheckDigits pfx).1,
                digitChar (Tckn.calculateCheckDigits pfx).2] := by
  unfold Tckn.complete at h
  split_ifs at h with h1 h2 h3
  exact ⟨h1.1, h1.2, h2, h3, (Except.ok.inj h).symm⟩

theorem tckn_patterns_take :
    ∀ l ∈ Tckn.INVALID_PATTERNS, l.take 9 ∈ Tckn.INVALID_PREFIXES := by decide

theorem tckn_validate_complete {pfx r : List Char}
    (h : Tckn.complete pfx = .ok r) : Tckn.validate r = true := by
  obtain ⟨h9, hdig, h0, hmem, rfl⟩ := tckn_complete_ok h
  obtain ⟨hc10, hc11⟩ := tckn_cd_lt pfx
  unfold Tckn.validate
  rw [if_neg, if_neg, if_neg, if_neg]
  · rw [List.take_left' h9, List.drop_left' h9]
    simp [digitVal_digitChar hc10, digitVal_digitChar hc11]
  · intro hmem'
    have := tckn_patterns_take _ hmem'
    rw [List.take_left' h9] at this
    exact hmem this
  · rw [List.take_append_of_le_length (by omega)]
    intro hEq
    exact h0 hEq
  · rw [not_not, List.all_append]
    simp only [Bool.and_eq_true, List.all_eq_true]
    refine ⟨List.all_eq_true.mp hdig, fun c hc => ?_⟩
    rcases List.mem_cons.mp hc with rfl | hc2
    · exact isDigitChar_digitChar hc10
    · rcases List.mem_singleton.mp hc2 with rfl
      exact isDigitChar_digitChar hc11
  · simp [h9]

/-! ## VKN: completion produces validating output -/

theorem vkn_cd_lt (pfx : List Char) : Vkn.calculateCheckDigit pfx < 10 :=
  Nat.mod_lt _ (by norm_num)

theorem vkn_complete_ok {pfx r : List Char} (h : Vkn.complete pfx = .ok r) :
    pfx.length = 9 ∧ pfx.all isDigitChar = true ∧
    r = pfx ++ [digitChar (Vkn.calculateCheckDigit pfx)] := by
  unfold Vkn.complete at h
  split_ifs at h with h1
  exact ⟨h1.1, h1.2, (Except.ok.inj h).symm⟩

theorem vkn_validate_complete {pfx r : List Char}
    (h : Vkn.complete pfx = .ok r) : Vkn.validate r = true := by
  obtain ⟨h9, hdig, rfl⟩ := vkn_complete_ok h
  have hlt := vkn_cd_lt pfx
  unfold Vkn.validate
  rw [if_neg, if_neg]
  · rw [List.take_left' h9, List.drop_left' h9]
    simp [digitVal_digitChar hlt]
  · rw [not_not, List.all_append]
    simp only [Bool.and_eq_true, List.all_eq_true]
    refine ⟨List.all_eq_true.mp hdig, fun c hc => ?_⟩
    rcases List.mem_singleton.mp hc with rfl
    exact isDigitChar_digitChar hlt
  · simp [h9]

/-! ## Digits are untouched by the cleaning filters -/

theorem digit_char_props {c : Char} (h : isDigitChar c = true) :
    isWsChar c = false ∧ c ≠ '-' ∧ c ≠ '.' ∧ c.toNat < 97 := by
  have hlt := toNat_lt_of_isDigitChar h
  simp only [isDigitChar, Bool.and_eq_true, decide_eq_true_eq] at h
  refine ⟨?_, ?_, ?_, hlt⟩
  · simp only [isWsChar, Bool.or_eq_false_iff, decide_eq_false_iff_not]
    refine ⟨⟨⟨?_, ?_⟩, ?_⟩, ?_⟩ <;> intro hEq <;> subst hEq <;> revert h <;> decide
  · intro hEq; subst hEq; revert h; decide
  · intro hEq; subst hEq; revert h; decide

theorem cc_clean_of_digits {z : List Char} (h : z.all isDigitChar = true) :
    CreditCard.cleanInput z = z := by
  unfold CreditCard.cleanInput
  refine filter_eq_self_of_all (fun c hc => ?_)
  obtain ⟨hws, hdash, _, _⟩ := digit_char_props (List.all_eq_true.mp h c hc)
  simp [hws, hdash]

theorem imei_clean_of_digits {z : List Char} (h : z.all isDigitChar = true) :
    Imei.cleanInput z = z := by
  unfold Imei.cleanInput
  refine filter_eq_self_of_all (fun c hc => ?_)
  obtain ⟨hws, hdash, hdot, _⟩ := digit_char_props (List.all_eq_true.mp h c hc)
  simp [hws, hdash, hdot]

theorem ean_clean_of_digits {z : List Char} (h : z.all isDigitChar = true) :
    Ean.cleanInput z = z := by
  unfold Ean.cleanInput
  refine filter_eq_self_of_all (fun c hc => ?_)
  obtain ⟨hws, hdash, _, _⟩ := digit_char_props (List.all_eq_true.mp h c hc)
  simp [hws, hdash]

theorem isbn_clean_of_digitsX {z : List Char}
    (h : z.all (fun c => isDigitChar c || c = 'X') = true) :
    Isbn.cleanInput z = z := by
  unfold Isbn.cleanInput
  have hall : ∀ c ∈ z, (isWsChar c = false ∧ c ≠ '-') ∧ c.toNat < 97 := by
    intro c hc
    have := List.all_eq_true.mp h c hc
    rcases Bool.or_eq_true_iff.mp this with hd | hx
    · obtain ⟨hws, hdash, _, hlt⟩ := digit_char_props hd
      exact ⟨⟨hws, hdash⟩, hlt⟩
    · rcases decide_eq_true_iff.mp hx with rfl
      exact ⟨⟨by decide, by decide⟩, by decide⟩
  rw [filter_eq_self_of_all (fun c hc => by
    obtain ⟨⟨hws, hdash⟩, _⟩ := hall c hc
    simp [hws, hdash])]
  exact map_jsUpper_eq_self (fun c hc => (hall c hc).2)

/-! ## Credit card: completion produces validating output -/

theorem cc_detect_cases {s : List Char} {info : CreditCard.CardInfo}
    (h : CreditCard.detectCardType s = some info) :
    ∃ k : CreditCard.CardKind, info = CreditCard.cardInfo k := by
  unfold CreditCard.detectCardType at h
  split_ifs at h <;> first
    | exact ⟨CreditCard.CardKind.visa, (Option.some.inj h).symm⟩
    | exact ⟨CreditCard.CardKind.mastercard, (Option.some.inj h).symm⟩
    | exact ⟨CreditCard.CardKind.amex, (Option.some.inj h).symm⟩
    | exact ⟨CreditCard.CardKind.discover, (Option.some.inj h).symm⟩
    | exact ⟨CreditCard.CardKind.jcb, (Option.some.inj h).symm⟩
    | exact ⟨CreditCard.CardKind.diners, (Option.some.inj h).symm⟩

theorem cc_lengths_facts (k : CreditCard.CardKind) :
    13 ≤ (CreditCard.cardInfo k).lengths.headD 0 ∧
    (CreditCard.cardInfo k).lengths.headD 0 ≤ 16 ∧
    (CreditCard.cardInfo k).lengths.contains
      ((CreditCard.cardInfo k).lengths.headD 0) = true := by
  cases k <;> decide

theorem cc_complete_ok {input : List Char} {rnd : Nat → Fin 10} {r : List Char}
    (h : CreditCard.complete input rnd = .ok r) :
    ∃ info, CreditCard.detectCardType (CreditCard.cleanInput input) = some info ∧
      4 ≤ (CreditCard.cleanInput input).length ∧
      (CreditCard.cleanInput input).length < info.lengths.headD 0 ∧
      r = CreditCard.formatCardNumber
        ((CreditCard.cleanInput input ++
            padDigits rnd (info.lengths.headD 0 - 1 - (CreditCard.cleanInput input).length)) ++
          [digitChar (calculateLuhnCheckDigit
            (CreditCard.cleanInput input ++
              padDigits rnd (info.lengths.headD 0 - 1 - (CreditCard.cleanInput input).length)))]) := by
  unfold CreditCard.complete at h
  simp only [] at h
  split_ifs at h with hA
  cases hdet : CreditCard.detectCardType (CreditCard.cleanInput input) with
  | none => rw [hdet] at h; exact absurd h (by simp)
  | some info =>
    rw [hdet] at h
    simp only [] at h
    split_ifs at h with hB
    push_neg at hA hB
    exact ⟨info, rfl, hA.2, hB, (Except.ok.inj h).symm⟩

theorem cc_complete_full {input : List Char} {rnd : Nat → Fin 10} {r : List Char}
    (hdig : (CreditCard.cleanInput input).all isDigitChar = true)
    (h : CreditCard.complete input rnd = .ok r) :
    ∃ info, CreditCard.detectCardType (CreditCard.cleanInput input) = some info ∧
      (CreditCard.cleanInput input).isPrefixOf (CreditCard.cleanInput r) = true ∧
      (CreditCard.cleanInput r).length = info.lengths.headD 0 ∧
      CreditCard.validate r = true := by
  obtain ⟨info, hdet, h4, hlt, rfl⟩ := cc_complete_ok h
  set c := CreditCard.cleanInput input with hc
  set pad := padDigits rnd (info.lengths.headD 0 - 1 - c.length) with hpad
  set z := (c ++ pad) ++ [digitChar (calculateLuhnCheckDigit (c ++ pad))] with hz
  have hcd : calculateLuhnCheckDigit (c ++ pad) < 10 := Nat.mod_lt _ (by norm_num)
  have hpd : pad.all isDigitChar = true := by
    rw [hpad]; exact padDigits_all_digits _ _
  have hzdig : z.all isDigitChar = true := by
    rw [hz, List.all_append, List.all_append]
    simp [hdig, ← hc, hpd, isDigitChar_digitChar hcd]
  have hclean : CreditCard.cleanInput (CreditCard.formatCardNumber z) = z := by
    unfold CreditCard.cleanInput
    rw [cc_filter_format (by decide)]
    exact cc_clean_of_digits hzdig
  obtain ⟨k, rfl⟩ := cc_detect_cases hdet
  obtain ⟨h13, h16, hcont⟩ := cc_lengths_facts k
  have hzlen : z.length = (CreditCard.cardInfo k).lengths.headD 0 := by
    rw [hz]
    simp only [List.length_append, List.length_cons, List.length_nil]
    rw [hpad, padDigits_length]
    omega
  refine ⟨CreditCard.cardInfo k, hdet, ?_, ?_, ?_⟩
  · rw [hclean, hz, List.append_assoc]
    exact isPrefixOf_append c _
  · rw [hclean, hzlen]
  · unfold CreditCard.validate
    rw [hclean]
    have hne : ¬(z = []) := by
      intro hnil
      rw [hnil] at hzlen
      simp only [List.length_nil] at hzlen
      omega
    rw [if_neg hne, if_neg (not_not.mpr hzdig)]
    have hdetz : CreditCard.detectCardType z = some (CreditCard.cardInfo k) := by
      rw [hz, List.append_assoc]
      rw [detectCardType_append _ h4]
      exact hdet
    rw [hdetz]
    simp only []
    rw [hzlen, hcont, hz, luhn_check_append (c ++ pad)]
    rfl

/-! ## IMEI: completion produces validating output -/

theorem imei_complete_ok {input : List Char} {rnd : Nat → Fin 10} {r : List Char}
    (h : Imei.complete input rnd = .ok r) :
    8 ≤ (Imei.cleanInput input).length ∧ (Imei.cleanInput input).length < 15 ∧
      r = Imei.formatImei
        ((Imei.cleanInput input ++ padDigits rnd (14 - (Imei.cleanInput input).length)) ++
          [digitChar (calculateLuhnCheckDigit
            (Imei.cleanInput input ++ padDigits rnd (14 - (Imei.cleanInput input).length)))]) := by
  unfold Imei.complete at h
  simp only [] at h
  split_ifs at h with hA hB
  push_neg at hA hB
  exact ⟨hA.2, hB, (Except.ok.inj h).symm⟩

theorem imei_complete_full {input : List Char} {rnd : Nat → Fin 10} {r : List Char}
    (hdig : (Imei.cleanInput input).all isDigitChar = true)
    (h : Imei.complete input rnd = .ok r) :
    (Imei.cleanInput input).isPrefixOf (Imei.cleanInput r) = true ∧
      (Imei.cleanInput r).length = 15 ∧ Imei.validate r = true := by
  obtain ⟨h8, hlt15, rfl⟩ := imei_complete_ok h
  set c := Imei.cleanInput input with hc
  set pad := padDigits rnd (14 - c.length) with hpad
  set z := (c ++ pad) ++ [digitChar (calculateLuhnCheckDigit (c ++ pad))] with hz
  have hcd : calculateLuhnCheckDigit (c ++ pad) < 10 := Nat.mod_lt _ (by norm_num)
  have hpd : pad.all isDigitChar = true := by
    rw [hpad]; exact padDigits_all_digits _ _
  have hzdig : z.all isDigitChar = true := by
    rw [hz, List.all_append, List.all_append]
    simp [hdig, ← hc, hpd, isDigitChar_digitChar hcd]
  have hzlen : z.length = 15 := by
    rw [hz]
    simp only [List.length_append, List.length_cons, List.length_nil]
    rw [hpad, padDigits_length]
    omega
  have hclean : Imei.cleanInput (Imei.formatImei z) = z := by
    unfold Imei.cleanInput
    rw [imei_filter_format (by decide)]
    exact imei_clean_of_digits hzdig
  refine ⟨?_, ?_, ?_⟩
  · rw [hclean, hz, List.append_assoc]
    exact isPrefixOf_append c _
  · rw [hclean, hzlen]
  · unfold Imei.validate
    rw [hclean]
    have hne : ¬(z = []) := by
      intro hnil
      rw [hnil] at hzlen
      simp at hzlen
    rw [if_neg hne, if_neg (not_not.mpr ⟨hzlen, hzdig⟩)]
    rw [hz]
    exact luhn_check_append (c ++ pad)

/-! ## ISBN: completion produces validating output -/

theorem isbn_complete_ok {part : List Char} {rnd : Nat → Fin 10} {r : List Char}
    (h : Isbn.complete part rnd = .ok r) :
    (3 ≤ (Isbn.cleanInput part).length ∧ (Isbn.cleanInput part).length < 10 ∧
      r = Isbn.completeAsIsbn10 (Isbn.cleanInput part) rnd) ∨
    (10 ≤ (Isbn.cleanInput part).length ∧ (Isbn.cleanInput part).length < 13 ∧
      r = Isbn.completeAsIsbn13 (Isbn.cleanInput part) rnd) := by
  unfold Isbn.complete at h
  simp only [] at h
  split_ifs at h with h1 h2
  · exact Or.inl ⟨h1.1, h1.2, (Except.ok.inj h).symm⟩
  · refine Or.inr ⟨?_, h2.2, (Except.ok.inj h).symm⟩
    push_neg at h1
    rcases Nat.lt_or_ge (Isbn.cleanInput part).length 10 with hlt | hge
    · exact absurd hlt (by intro hc; exact absurd (h1 h2.1) (by omega))
    · exact hge

theorem isbn10_round {ds : List Char} (h9 : ds.length = 9)
    (hd : ds.all isDigitChar = true) :
    Isbn.cleanInput (Isbn.formatIsbn10 (ds ++ [Isbn.isbn10CheckChar (Isbn.isbn10Sum ds)]))
      = ds ++ [Isbn.isbn10CheckChar (Isbn.isbn10Sum ds)] ∧
    Isbn.validate (Isbn.formatIsbn10 (ds ++ [Isbn.isbn10CheckChar (Isbn.isbn10Sum ds)])) = true := by
  set cc := Isbn.isbn10CheckChar (Isbn.isbn10Sum ds) with hcc
  have hallX : (ds ++ [cc]).all (fun c => isDigitChar c || c = 'X') = true := by
    rw [List.all_append]
    simp only [Bool.and_eq_true, List.all_eq_true]
    constructor
    · intro c hc
      simp [List.all_eq_true.mp hd c hc]
    · intro c hc
      rcases List.mem_singleton.mp hc with rfl
      rcases isbn10CheckChar_digit_or_X (Isbn.isbn10Sum ds) with h | h
      · simp [← hcc, h]
      · rw [← hcc] at h
        simp [h]
  have hclean : Isbn.cleanInput (Isbn.formatIsbn10 (ds ++ [cc])) = ds ++ [cc] := by
    unfold Isbn.cleanInput
    rw [isbn10_filter_format (by decide)]
    exact isbn_clean_of_digitsX hallX
  refine ⟨hclean, ?_⟩
  unfold Isbn.validate
  rw [hclean]
  have hlen : (ds ++ [cc]).length = 10 := by simp [h9]
  rw [if_pos hlen, hcc]
  exact validateIsbn10_append h9 hd

theorem isbn13_round {ds : List Char} (h12 : ds.length = 12)
    (hd : ds.all isDigitChar = true)
    (hp : Isbn.startsWith978or979 ds = true) :
    Isbn.cleanInput (Isbn.formatIsbn13 (ds ++ [digitChar (Isbn.isbn13CheckDigit ds)]))
      = ds ++ [digitChar (Isbn.isbn13CheckDigit ds)] ∧
    Isbn.validate (Isbn.formatIsbn13 (ds ++ [digitChar (Isbn.isbn13CheckDigit ds)])) = true := by
  have hlt : Isbn.isbn13CheckDigit ds < 10 := Nat.mod_lt _ (by norm_num)
  have hall : (ds ++ [digitChar (Isbn.isbn13CheckDigit ds)]).all isDigitChar = true := by
    rw [List.all_append]
    simp only [Bool.and_eq_true, List.all_eq_true]
    refine ⟨List.all_eq_true.mp hd, fun c hc => ?_⟩
    rcases List.mem_singleton.mp hc with rfl
    exact isDigitChar_digitChar hlt
  have hclean : Isbn.cleanInput (Isbn.formatIsbn13 (ds ++ [digitChar (Isbn.isbn13CheckDigit ds)]))
      = ds ++ [digitChar (Isbn.isbn13CheckDigit ds)] := by
    unfold Isbn.cleanInput
    rw [isbn13_filter_format (by decide)]
    refine isbn_clean_of_digitsX ?_
    simp only [List.all_eq_true] at hall ⊢
    intro c hc
    simp [hall c hc]
  refine ⟨hclean, ?_⟩
  unfold Isbn.validate
  rw [hclean]
  have hlen : (ds ++ [digitChar (Isbn.isbn13CheckDigit ds)]).length = 13 := by simp [h12]
  rw [if_neg (by simp [hlen]), if_pos hlen]
  exact validateIsbn13_append h12 hd hp

/-! ## EAN: completion produces validating output -/

theorem ean_complete_ok {part : List Char} {rnd : Nat → Fin 10} {r : List Char}
    (h : Ean.complete part rnd = .ok r) :
    (3 ≤ (Ean.cleanInput part).length ∧ (Ean.cleanInput part).length < 7 ∧
      r = Ean.completeAsEan8 (Ean.cleanInput part) rnd) ∨
    (7 ≤ (Ean.cleanInput part).length ∧ (Ean.cleanInput part).length < 12 ∧
      r = Ean.completeAsEan13 (Ean.cleanInput part) rnd) := by
  unfold Ean.complete at h
  simp only [] at h
  split_ifs at h with h1 h2 h3
  · exact Or.inl ⟨h1.1, h1.2, (Except.ok.inj h).symm⟩
  · exact Or.inr ⟨h2.1, h2.2, (Except.ok.inj h).symm⟩
  · push_neg at h1 h2
    rcases Nat.lt_or_ge (Ean.cleanInput part).length 7 with hlt | hge
    · exact absurd hlt (by intro hc; exact absurd (h1 h3.1) (by omega))
    · exact absurd (h2 hge) (by omega)

theorem ean_clean_format13 {z : List Char} (hdz : z.all isDigitChar = true) :
    Ean.cleanInput (Ean.formatEan13 z) = z := by
  unfold Ean.cleanInput
  rw [ean13_filter_format (by decide)]
  exact ean_clean_of_digits hdz

theorem ean_clean_formatUpcA {z : List Char} (hdz : z.all isDigitChar = true) :
    Ean.cleanInput (Ean.formatUpcA z) = z := by
  unfold Ean.cleanInput
  rw [upcA_filter_format (by decide)]
  exact ean_clean_of_digits hdz

theorem ean_clean_format8 {z : List Char} (hdz : z.all isDigitChar = true) :
    Ean.cleanInput (Ean.formatEan8 z) = z := by
  unfold Ean.cleanInput
  rw [ean8_filter_format (by decide)]
  exact ean_clean_of_digits hdz

theorem ean_data_digits {ds : List Char} (hd : ds.all isDigitChar = true) :
    (ds ++ [digitChar (Ean.calculateChecksum ds)]).all isDigitChar = true := by
  rw [List.all_append]
  simp only [Bool.and_eq_true, List.all_eq_true]
  refine ⟨List.all_eq_true.mp hd, fun c hc => ?_⟩
  rcases List.mem_singleton.mp hc with rfl
  exact isDigitChar_digitChar (Nat.mod_lt _ (by norm_num))

theorem ean13_round {ds : List Char} (h12 : ds.length = 12)
    (hd : ds.all isDigitChar = true) :
    Ean.cleanInput (Ean.formatEan13 (ds ++ [digitChar (Ean.calculateChecksum ds)]))
      = ds ++ [digitChar (Ean.calculateChecksum ds)] ∧
    Ean.validate (Ean.formatEan13 (ds ++ [digitChar (Ean.calculateChecksum ds)])) = true := by
  have hall := ean_data_digits hd
  have hclean := ean_clean_format13 hall
  refine ⟨hclean, ?_⟩
  unfold Ean.validate
  rw [hclean]
  have hlen : (ds ++ [digitChar (Ean.calculateChecksum ds)]).length = 13 := by simp [h12]
  rw [if_pos hlen, hall, ean_check_append ds]
  rfl

theorem eanUpcA_round {ds : List Char} (h11 : ds.length = 11)
    (hd : ds.all isDigitChar = true) :
    Ean.cleanInput (Ean.formatUpcA (ds ++ [digitChar (Ean.calculateChecksum ds)]))
      = ds ++ [digitChar (Ean.calculateChecksum ds)] ∧
    Ean.validate (Ean.formatUpcA (ds ++ [digitChar (Ean.calculateChecksum ds)])) = true := by
  have hall := ean_data_digits hd
  have hclean := ean_clean_formatUpcA hall
  refine ⟨hclean, ?_⟩
  unfold Ean.validate
  rw [hclean]
  have hlen : (ds ++ [digitChar (Ean.calculateChecksum ds)]).length = 12 := by simp [h11]
  rw [if_neg (by simp [hlen]), if_pos hlen, hall, ean_check_append ds]
  rfl

theorem ean8_round {ds : List Char} (h7 : ds.length = 7)
    (hd : ds.all isDigitChar = true) :
    Ean.cleanInput (Ean.formatEan8 (ds ++ [digitChar (Ean.calculateChecksum ds)]))
      = ds ++ [digitChar (Ean.calculateChecksum ds)] ∧
    Ean.validate (Ean.formatEan8 (ds ++ [digitChar (Ean.calculateChecksum ds)])) = true := by
  have hall := ean_data_digits hd
  have hclean := ean_clean_format8 hall
  refine ⟨hclean, ?_⟩
  unfold Ean.validate
  rw [hclean]
  have hlen : (ds ++ [digitChar (Ean.calculateChecksum ds)]).length = 8 := by simp [h7]
  rw [if_neg (by simp [hlen]), if_neg (by simp [hlen]), if_pos hlen, hall,
    ean_check_append ds]
  rfl

/-! ## IBAN: generation produces validating output -/

theorem twoDigits_length (n : Nat) : (twoDigits n).length = 2 := rfl

theorem twoDigits_digits {n : Nat} (h : n ≤ 99) :
    (twoDigits n).all isDigitChar = true := by
  unfold twoDigits
  have h1 : n / 10 < 10 := by omega
  have h2 : n % 10 < 10 := by omega
  simp [isDigitChar_digitChar h1, isDigitChar_digitChar h2]

theorem twoDigits_val {n : Nat} (h : n ≤ 99) :
    digitsToNat (twoDigits n) = n := by
  unfold twoDigits digitsToNat
  have h1 : n / 10 < 10 := by omega
  have h2 : n % 10 < 10 := by omega
  simp only [List.foldl_cons, List.foldl_nil]
  rw [digitVal_digitChar h1, digitVal_digitChar h2]
  omega

theorem convert_append (a b : List Char) :
    Iban.convertLettersToNumbers (a ++ b)
      = Iban.convertLettersToNumbers a ++ Iban.convertLettersToNumbers b := by
  unfold Iban.convertLettersToNumbers
  exact List.flatMap_append a b _

theorem iban_D_digits {bank acct : List Char}
    (hbd : bank.all isDigitChar = true) (had : acct.all isDigitChar = true) :
    (bank ++ '0' :: acct).all isDigitChar = true := by
  rw [List.all_append]
  simp only [Bool.and_eq_true, List.all_cons]
  exact ⟨hbd, by decide, had⟩

theorem iban_cd_eq {bank acct : List Char}
    (hbd : bank.all isDigitChar = true) (had : acct.all isDigitChar = true) :
    Iban.calculateCheckDigits ('T' :: 'R' :: '0' :: '0' :: (bank ++ '0' :: acct))
      = 98 - (digitsToNat (bank ++ '0' :: acct) * 10 ^ 6 + 292700) % 97 := by
  unfold Iban.calculateCheckDigits
  simp only []
  have hz : List.take 2 ('T' :: 'R' :: '0' :: '0' :: (bank ++ '0' :: acct)) ++ ['0', '0'] ++
      List.drop 4 ('T' :: 'R' :: '0' :: '0' :: (bank ++ '0' :: acct))
      = 'T' :: 'R' :: '0' :: '0' :: (bank ++ '0' :: acct) := rfl
  rw [hz]
  have hre : List.drop 4 ('T' :: 'R' :: '0' :: '0' :: (bank ++ '0' :: acct)) ++
      List.take 4 ('T' :: 'R' :: '0' :: '0' :: (bank ++ '0' :: acct))
      = (bank ++ '0' :: acct) ++ ['T', 'R', '0', '0'] := rfl
  rw [hre]
  rw [convert_append, convert_digits (iban_D_digits hbd had)]
  rw [show Iban.convertLettersToNumbers ['T', 'R', '0', '0']
      = ['2', '9', '2', '7', '0', '0'] from by decide]
  rw [calculateMod97_eq, digitsToNat_append]
  rfl

theorem iban_checksum_valid {bank acct : List Char}
    (hbd : bank.all isDigitChar = true) (had : acct.all isDigitChar = true)
    {cd : Nat} (hcd : cd = 98 - (digitsToNat (bank ++ '0' :: acct) * 10 ^ 6 + 292700) % 97) :
    Iban.validateChecksum ('T' :: 'R' :: (twoDigits cd ++ bank ++ '0' :: acct)) = true := by
  have hcd99 : cd ≤ 99 := by omega
  have htake4 : ('T' :: 'R' :: (twoDigits cd ++ bank ++ '0' :: acct)).take 4
      = ['T', 'R'] ++ twoDigits cd := by
    unfold twoDigits; rfl
  have hdrop4 : ('T' :: 'R' :: (twoDigits cd ++ bank ++ '0' :: acct)).drop 4
      = bank ++ '0' :: acct := by
    unfold twoDigits; rfl
  have htail : digitsToNat (['2', '9', '2', '7'] ++ twoDigits cd) = 292700 + cd := by
    rw [digitsToNat_append, twoDigits_length, twoDigits_val hcd99]
    rw [show digitsToNat ['2', '9', '2', '7'] = 2927 from by decide]
    norm_num
  unfold Iban.validateChecksum
  rw [htake4, hdrop4]
  rw [convert_append, convert_digits (iban_D_digits hbd had), convert_append,
    convert_digits (twoDigits_digits hcd99)]
  rw [show Iban.convertLettersToNumbers ['T', 'R'] = ['2', '9', '2', '7'] from by decide]
  rw [calculateMod97_eq, digitsToNat_append, htail]
  have hlen6 : (['2', '9', '2', '7'] ++ twoDigits cd).length = 6 := by
    simp [twoDigits_length]
  rw [hlen6]
  simp only [decide_eq_true_eq]
  have hp6 : (10 : Nat) ^ 6 = 1000000 := by norm_num
  rw [hp6] at hcd ⊢
  omega

theorem iban_validate_format {bank acct : List Char} (cd : Nat)
    (hb5 : bank.length = 5) (hbd : bank.all isDigitChar = true)
    (ha16 : acct.length = 16) (had : acct.all isDigitChar = true)
    (hcd99 : cd ≤ 99)
    (hchk : Iban.validateChecksum ('T' :: 'R' :: (twoDigits cd ++ bank ++ '0' :: acct)) = true) :
    Iban.validate (Iban.formatIban ('T' :: 'R' :: (twoDigits cd ++ bank ++ '0' :: acct))) = true := by
  have hfd : ∀ c ∈ 'T' :: 'R' :: (twoDigits cd ++ bank ++ '0' :: acct),
      isWsChar c = false ∧ c.toNat < 97 := by
    intro c hc
    rcases List.mem_cons.mp hc with rfl | hc
    · exact ⟨by decide, by decide⟩
    rcases List.mem_cons.mp hc with rfl | hc
    · exact ⟨by decide, by decide⟩
    rcases List.mem_append.mp hc with hc | hc
    · rcases List.mem_append.mp hc with hc | hc
      · obtain ⟨hws, _, _, hlt⟩ :=
          digit_char_props (List.all_eq_true.mp (twoDigits_digits hcd99) c hc)
        exact ⟨hws, hlt⟩
      · obtain ⟨hws, _, _, hlt⟩ :=
          digit_char_props (List.all_eq_true.mp hbd c hc)
        exact ⟨hws, hlt⟩
    · rcases List.mem_cons.mp hc with rfl | hc
      · exact ⟨by decide, by decide⟩
      · obtain ⟨hws, _, _, hlt⟩ :=
          digit_char_props (List.all_eq_true.mp had c hc)
        exact ⟨hws, hlt⟩
  have hclean := iban_clean_formatIban _ hfd
  have hstart : Iban.startsWithTR ('T' :: 'R' :: (twoDigits cd ++ bank ++ '0' :: acct)) = true := rfl
  have hflen : ('T' :: 'R' :: (twoDigits cd ++ bank ++ '0' :: acct)).length = 26 := by
    simp [twoDigits_length, hb5, ha16]
  have hmatch : Iban.matchTR24 ('T' :: 'R' :: (twoDigits cd ++ bank ++ '0' :: acct)) = true := by
    unfold Iban.matchTR24
    have hl : (twoDigits cd ++ bank ++ '0' :: acct).length = 24 := by
      simp [twoDigits_length, hb5, ha16]
    have hdd : (twoDigits cd ++ bank ++ '0' :: acct).all isDigitChar = true := by
      rw [List.all_append, List.all_append]
      simp only [Bool.and_eq_true, List.all_cons]
      exact ⟨⟨twoDigits_digits hcd99, hbd⟩, by decide, had⟩
    have hdr : ('T' :: 'R' :: (twoDigits cd ++ bank ++ '0' :: acct)).drop 2
        = twoDigits cd ++ bank ++ '0' :: acct := rfl
    have htk2 : List.take 2 ('T' :: 'R' :: (twoDigits cd ++ bank ++ '0' :: acct))
        = "TR".toList := rfl
    rw [hdr, htk2, hl, hdd]
    decide
  have hassoc : 'T' :: 'R' :: (twoDigits cd ++ bank ++ '0' :: acct)
      = ('T' :: 'R' :: (twoDigits cd ++ bank)) ++ '0' :: acct := by
    simp [List.append_assoc]
  have hA9 : ('T' :: 'R' :: (twoDigits cd ++ bank)).length = 9 := by
    simp [twoDigits_length, hb5]
  have hres : (('T' :: 'R' :: (twoDigits cd ++ bank ++ '0' :: acct)).drop 9).take 1 = ['0'] := by
    rw [hassoc, List.drop_left' hA9]
    rfl
  unfold Iban.validate
  rw [hclean]
  rw [if_neg (not_not.mpr hstart), if_neg (fun hne => hne hflen),
    if_neg (not_not.mpr hmatch), if_neg (fun hne => hne hres)]
  exact hchk

theorem iban_generate_valid {bank acct : List Char}
    (hb5 : bank.length = 5) (hbd : bank.all isDigitChar = true)
    (ha16 : acct.length = 16) (had : acct.all isDigitChar = true) :
    Iban.validate (Iban.generate bank acct) = true := by
  unfold Iban.generate
  simp only []
  rw [iban_cd_eq hbd had]
  exact iban_validate_format _ hb5 hbd ha16 had (by omega)
    (iban_checksum_valid hbd had rfl)

theorem length_ten_cases {l : List Char} (h : l.length = 10) :
    ∃ a b c d e f g h9 i j, l = [a, b, c, d, e, f, g, h9, i, j] := by
  match l with
  | [a, b, c, d, e, f, g, h9, i, j] => exact ⟨a, b, c, d, e, f, g, h9, i, j, rfl⟩
  | [] | [_] | [_,_] | [_,_,_] | [_,_,_,_] | [_,_,_,_,_] | [_,_,_,_,_,_]
  | [_,_,_,_,_,_,_] | [_,_,_,_,_,_,_,_] | [_,_,_,_,_,_,_,_,_] => simp at h
  | _ :: _ :: _ :: _ :: _ :: _ :: _ :: _ :: _ :: _ :: _ :: _ =>
    simp only [List.length_cons] at h
    omega

theorem length_eleven_cases {l : List Char} (h : l.length = 11) :
    ∃ a b c d e f g h9 i j k, l = [a, b, c, d, e, f, g, h9, i, j, k] := by
  match l with
  | [a, b, c, d, e, f, g, h9, i, j, k] => exact ⟨a, b, c, d, e, f, g, h9, i, j, k, rfl⟩
  | [] | [_] | [_,_] | [_,_,_] | [_,_,_,_] | [_,_,_,_,_] | [_,_,_,_,_,_]
  | [_,_,_,_,_,_,_] | [_,_,_,_,_,_,_,_] | [_,_,_,_,_,_,_,_,_]
  | [_,_,_,_,_,_,_,_,_,_] => simp at h
  | _ :: _ :: _ :: _ :: _ :: _ :: _ :: _ :: _ :: _ :: _ :: _ :: _ =>
    simp only [List.length_cons] at h
    omega

/-! ## The loop-based check digits equal their closed specification form -/

theorem tckn_cd_spec {pfx : List Char} (h : pfx.length = 9) :
    Tckn.calculateCheckDigits pfx = (Tckn.c10Spec pfx, Tckn.c11Spec pfx) := by
  obtain ⟨a, b, c, d, e, f, g, h9, i, rfl⟩ := length_nine_cases h
  simp only [Tckn.calculateCheckDigits, Tckn.c10Spec, Tckn.c11Spec, Tckn.t1Spec,
    Tckn.t2Spec]
  simp only [List.take, List.drop, Tckn.sumEveryOther, List.getD,
    List.get?_cons_zero, List.get?_cons_succ, List.getElem?_cons_zero,
    List.getElem?_cons_succ, Option.getD_some]
  simp only [Prod.mk.injEq]
  exact ⟨by omega, by omega⟩

theorem vkn_cd_spec {pfx : List Char} (h : pfx.length = 9) :
    Vkn.calculateCheckDigit pfx = Vkn.checkDigitSpec pfx := by
  obtain ⟨a, b, c, d, e, f, g, h9, i, rfl⟩ := length_nine_cases h
  simp only [Vkn.calculateCheckDigit, Vkn.checkDigitSpec]
  simp only [List.take, Vkn.sumGo, List.getD,
    List.get?_cons_zero, List.get?_cons_succ, List.getElem?_cons_zero,
    List.getElem?_cons_succ, Option.getD_some]
  norm_num
  omega

/-! ## Validate characterizations for fixed-length digit strings -/

theorem tckn_validate_iff {s : List Char} (h11 : s.length = 11)
    (hd : s.all isDigitChar = true) :
    Tckn.validate s = true ↔
      (s.take 1 ≠ ['0'] ∧ s ∉ Tckn.INVALID_PATTERNS ∧
       digitVal (s.getD 9 '0') = Tckn.c10Spec (s.take 9) ∧
       digitVal (s.getD 10 '0') = Tckn.c11Spec (s.take 9)) := by
  have htake9 : (s.take 9).length = 9 := by
    rw [List.length_take]
    omega
  unfold Tckn.validate
  rw [if_neg (by omega), if_neg (by simp [hd])]
  obtain ⟨a, b, c, d, e, f, g, h9, i, j, k, rfl⟩ := length_eleven_cases h11
  rw [tckn_cd_spec htake9]
  by_cases h0 : List.take 1 [a, b, c, d, e, f, g, h9, i, j, k] = ['0']
  · rw [if_pos h0]
    simp [h0]
  · rw [if_neg h0]
    by_cases hm : [a, b, c, d, e, f, g, h9, i, j, k] ∈ Tckn.INVALID_PATTERNS
    · rw [if_pos hm]
      simp [hm]
    · rw [if_neg hm]
      simp only [List.drop, List.getD, List.get?_cons_zero, List.get?_cons_succ,
        List.getElem?_cons_zero, List.getElem?_cons_succ, Option.getD_some]
      constructor
      · intro hT
        simp only [Bool.and_eq_true, decide_eq_true_eq] at hT
        exact ⟨h0, hm, hT.1, hT.2⟩
      · intro ⟨_, _, hc10, hc11⟩
        simp [hc10, hc11]

theorem vkn_validate_iff {s : List Char} (h10 : s.length = 10)
    (hd : s.all isDigitChar = true) :
    Vkn.validate s = true ↔
      digitVal (s.getD 9 '0') = Vkn.checkDigitSpec (s.take 9) := by
  have htake9 : (s.take 9).length = 9 := by
    rw [List.length_take]
    omega
  unfold Vkn.validate
  rw [if_neg (by omega), if_neg (by simp [hd])]
  obtain ⟨a, b, c, d, e, f, g, h9, i, j, rfl⟩ := length_ten_cases h10
  rw [vkn_cd_spec htake9]
  simp only [List.drop, List.getD, List.get?_cons_zero, List.get?_cons_succ,
    List.getElem?_cons_zero, List.getElem?_cons_succ, Option.getD_some]
  simp

/-! ## IBAN: equivalence of loop-based validation with its specification -/

theorem matchTR24_facts {c : List Char} (h : Iban.matchTR24 c = true) :
    Iban.startsWithTR c = true ∧ c.length = 26 := by
  unfold Iban.matchTR24 at h
  simp only [Bool.and_eq_true, decide_eq_true_eq] at h
  obtain ⟨⟨htk, hlen⟩, _⟩ := h
  constructor
  · unfold Iban.startsWithTR
    simp [htk]
  · have := List.take_append_drop 2 c
    rw [htk] at this
    have hlc := congrArg List.length this
    simp only [List.length_append] at hlc
    rw [hlen] at hlc
    simpa using hlc.symm

theorem iban_validate_eq_spec (s : List Char) :
    Iban.validate s = Iban.validateSpec s := by
  unfold Iban.validate Iban.validateSpec Iban.validateChecksum
  simp only []
  by_cases hm : Iban.matchTR24 (Iban.clean s) = true
  · obtain ⟨hstart, hlen⟩ := matchTR24_facts hm
    rw [if_neg (not_not.mpr hstart), if_neg (fun hne => hne hlen),
      if_neg (not_not.mpr hm), hm]
    by_cases hres : (List.take 1 (List.drop 9 (Iban.clean s))) = ['0']
    · rw [if_neg (fun hne => hne hres)]
      rw [calculateMod97_eq]
      simp [hres]
    · rw [if_pos hres]
      simp [hres]
  · have hmf : Iban.matchTR24 (Iban.clean s) = false := by
      cases hb : Iban.matchTR24 (Iban.clean s)
      · rfl
      · exact absurd hb hm
    rw [hmf]
    by_cases hst : Iban.startsWithTR (Iban.clean s) = true
    · rw [if_neg (not_not.mpr hst)]
      by_cases hl : (Iban.clean s).length = 26
      · rw [if_neg (fun hne => hne hl), if_pos (by simp)]
        simp
      · rw [if_pos hl]
        simp
    · rw [if_pos hst]
      simp

/-! ## IBAN: the four branches of `complete` -/

theorem iban_complete_empty {pfx : List Char} (rnd : Nat → Fin 10)
    (h : Iban.clean pfx = []) :
    Iban.complete pfx rnd = "TR320010009999901234567890".toList := by
  unfold Iban.complete
  simp only []
  rw [if_pos, if_pos h]
  rw [h]
  decide

theorem iban_complete_noTR {pfx : List Char} (rnd : Nat → Fin 10)
    (h1 : Iban.startsWithTR (Iban.clean pfx) = false) (h2 : Iban.clean pfx ≠ []) :
    Iban.complete pfx rnd = 'T' :: 'R' :: padEndList (Iban.clean pfx) 24 '0' := by
  unfold Iban.complete
  simp only []
  rw [if_pos (by simp [h1]), if_neg h2]

theorem iban_complete_short {pfx : List Char} (rnd : Nat → Fin 10)
    (h1 : Iban.startsWithTR (Iban.clean pfx) = true)
    (h2 : (Iban.clean pfx).length < 26) :
    Iban.complete pfx rnd = Iban.generate "00001".toList (padDigits rnd 16) ∧
    Iban.validate (Iban.complete pfx rnd) = true := by
  have heq : Iban.complete pfx rnd = Iban.generate "00001".toList (padDigits rnd 16) := by
    unfold Iban.complete
    simp only []
    rw [if_neg (not_not.mpr h1), if_pos h2]
  refine ⟨heq, ?_⟩
  rw [heq]
  exact iban_generate_valid (by decide) (by decide) (padDigits_length rnd 16)
    (padDigits_all_digits rnd 16)

theorem iban_complete_long {pfx : List Char} (rnd : Nat → Fin 10)
    (h1 : Iban.startsWithTR (Iban.clean pfx) = true)
    (h2 : ¬ (Iban.clean pfx).length < 26) :
    Iban.complete pfx rnd = Iban.formatIban (Iban.clean pfx) := by
  unfold Iban.complete
  simp only []
  rw [if_neg (not_not.mpr h1), if_neg h2]

/-! ## Detection engine: the country-prefix branch short-circuits -/

theorem detect_TR {input : List Char}
    (h : Iban.startsWithTR ((input.filter (fun ch => !isWsChar ch)).map jsUpper) = true) :
    Factory.detectPossibleServiceTypes input = [ServiceType.iban] := by
  unfold Factory.detectPossibleServiceTypes
  simp only []
  rw [if_pos (by simp [h])]

/-! ## Credit card: generation produces validating output -/

theorem cc_validate_of_format {z : List Char} {k : CreditCard.CardKind}
    (hdig : z.all isDigitChar = true) (hne : z ≠ [])
    (hdet : CreditCard.detectCardType z = some (CreditCard.cardInfo k))
    (hlen : (CreditCard.cardInfo k).lengths.contains z.length = true)
    (hluhn : validateLuhn z = true) :
    CreditCard.validate (CreditCard.formatCardNumber z) = true := by
  have hclean : CreditCard.cleanInput (CreditCard.formatCardNumber z) = z := by
    unfold CreditCard.cleanInput
    rw [cc_filter_format (by decide)]
    exact cc_clean_of_digits hdig
  unfold CreditCard.validate
  rw [hclean]
  rw [if_neg hne, if_neg (not_not.mpr hdig), hdet]
  simp only []
  rw [hlen, hluhn]
  rfl

theorem cc_detect_visa {rest : List Char} :
    CreditCard.detectCardType ('4' :: rest) = some (CreditCard.cardInfo .visa) := by
  unfold CreditCard.detectCardType
  rw [if_pos]
  unfold CreditCard.matchesVisa
  simp

theorem cc_detect_mastercard {c : Char} {rest : List Char}
    (h : CreditCard.charBetween '1' '5' c = true) :
    CreditCard.detectCardType ('5' :: c :: rest)
      = some (CreditCard.cardInfo .mastercard) := by
  unfold CreditCard.detectCardType
  rw [if_neg, if_pos]
  · unfold CreditCard.matchesMastercard CreditCard.charAtIs
    simp [h]
  · unfold CreditCard.matchesVisa
    simp

theorem cc_detect_amex {c : Char} {rest : List Char} (h : c = '4' ∨ c = '7') :
    CreditCard.detectCardType ('3' :: c :: rest)
      = some (CreditCard.cardInfo .amex) := by
  unfold CreditCard.detectCardType
  rw [if_neg, if_neg, if_pos]
  · unfold CreditCard.matchesAmex CreditCard.charAtIs
    rcases h with rfl | rfl <;> simp
  · unfold CreditCard.matchesMastercard
    simp
  · unfold CreditCard.matchesVisa
    simp

theorem cc_detect_discover {rest : List Char} :
    CreditCard.detectCardType ('6' :: '0' :: '1' :: '1' :: rest)
      = some (CreditCard.cardInfo .discover) := by
  unfold CreditCard.detectCardType
  rw [if_neg, if_neg, if_neg, if_pos]
  · unfold CreditCard.matchesDiscover
    simp
  · unfold CreditCard.matchesAmex
    simp
  · unfold CreditCard.matchesMastercard
    simp
  · unfold CreditCard.matchesVisa
    simp

theorem cc_detect_jcb {c d : Char} {rest : List Char}
    (hc : CreditCard.charBetween '2' '8' c = true)
    (hd : CreditCard.charBetween '8' '9' d = true) :
    CreditCard.detectCardType ('3' :: '5' :: c :: d :: rest)
      = some (CreditCard.cardInfo .jcb) := by
  unfold CreditCard.detectCardType
  rw [if_neg, if_neg, if_neg, if_neg, if_pos]
  · unfold CreditCard.matchesJcb CreditCard.charAtIs
    simp [hc, hd]
  · unfold CreditCard.matchesDiscover CreditCard.charAtIs
    simp
  · unfold CreditCard.matchesAmex CreditCard.charAtIs
    simp
  · unfold CreditCard.matchesMastercard
    simp
  · unfold CreditCard.matchesVisa
    simp

theorem cc_detect_diners {c : Char} {rest : List Char}
    (h : c = '0' ∨ c = '6' ∨ c = '8' ∨ c = '9') :
    CreditCard.detectCardType ('3' :: c :: rest)
      = some (CreditCard.cardInfo .diners) := by
  unfold CreditCard.detectCardType
  rw [if_neg, if_neg, if_neg, if_neg, if_neg, if_pos]
  · unfold CreditCard.matchesDiners CreditCard.charAtIs
    rcases h with rfl | rfl | rfl | rfl <;> simp
  · unfold CreditCard.matchesJcb
    rcases h with rfl | rfl | rfl | rfl <;> simp
  · unfold CreditCard.matchesDiscover CreditCard.charAtIs
    simp
  · unfold CreditCard.matchesAmex CreditCard.charAtIs
    rcases h with rfl | rfl | rfl | rfl <;> simp
  · unfold CreditCard.matchesMastercard
    simp
  · unfold CreditCard.matchesVisa
    simp

theorem cc_generate_eq (k : CreditCard.CardKind) (pfx : List Char)
    (rnd : Nat → Fin 10)
    (hlt : pfx.length < (CreditCard.cardInfo k).lengths.headD 0 - 1) :
    CreditCard.generate k pfx rnd = CreditCard.formatCardNumber
      ((pfx ++ padDigits rnd ((CreditCard.cardInfo k).lengths.headD 0 - 1 - pfx.length)) ++
        [digitChar (calculateLuhnCheckDigit
          (pfx ++ padDigits rnd ((CreditCard.cardInfo k).lengths.headD 0 - 1 - pfx.length)))]) := by
  unfold CreditCard.generate
  simp only []
  rw [if_pos hlt]
  have hplen : (pfx ++ padDigits rnd ((CreditCard.cardInfo k).lengths.headD 0 - 1 - pfx.length)).length
      = (CreditCard.cardInfo k).lengths.headD 0 - 1 := by
    rw [List.length_append, padDigits_length]
    omega
  rw [List.take_of_length_le (le_of_eq hplen)]

theorem cc_gen_payload_len (k : CreditCard.CardKind) (pfx : List Char)
    (rnd : Nat → Fin 10)
    (hlt : pfx.length < (CreditCard.cardInfo k).lengths.headD 0 - 1) :
    ((pfx ++ padDigits rnd ((CreditCard.cardInfo k).lengths.headD 0 - 1 - pfx.length)) ++
      [digitChar (calculateLuhnCheckDigit
        (pfx ++ padDigits rnd ((CreditCard.cardInfo k).lengths.headD 0 - 1 - pfx.length)))]).length
    = (CreditCard.cardInfo k).lengths.headD 0 := by
  have h13 := (cc_lengths_facts k).1
  simp only [List.length_append, padDigits_length, List.length_cons, List.length_nil]
  omega

theorem cc_gen_digits {k : CreditCard.CardKind} {pfx : List Char}
    (rnd : Nat → Fin 10) (hd : pfx.all isDigitChar = true) :
    ((pfx ++ padDigits rnd ((CreditCard.cardInfo k).lengths.headD 0 - 1 - pfx.length)) ++
      [digitChar (calculateLuhnCheckDigit
        (pfx ++ padDigits rnd ((CreditCard.cardInfo k).lengths.headD 0 - 1 - pfx.length)))]).all
      isDigitChar = true := by
  rw [List.all_append, List.all_append]
  simp only [Bool.and_eq_true, List.all_cons, List.all_nil]
  refine ⟨⟨hd, padDigits_all_digits _ _⟩, ?_, trivial⟩
  exact isDigitChar_digitChar (Nat.mod_lt _ (by norm_num))

theorem genPrefixOk_mastercard_shape {p : List Char}
    (h : CreditCard.genPrefixOk .mastercard p = true) :
    ∃ c, p = ['5', c] ∧ CreditCard.charBetween '1' '5' c = true := by
  unfold CreditCard.genPrefixOk at h
  split at h
  · rename_i heq; exact CreditCard.CardKind.noConfusion heq
  · split at h
    · rename_i c; exact ⟨c, rfl, h⟩
    · simp at h
  · rename_i heq; exact CreditCard.CardKind.noConfusion heq
  · rename_i heq; exact CreditCard.CardKind.noConfusion heq
  · rename_i heq; exact CreditCard.CardKind.noConfusion heq
  · rename_i heq; exact CreditCard.CardKind.noConfusion heq

theorem genPrefixOk_jcb_shape {p : List Char}
    (h : CreditCard.genPrefixOk .jcb p = true) :
    ∃ c d, p = ['3', '5', c, d] ∧ CreditCard.charBetween '2' '8' c = true ∧
      CreditCard.charBetween '8' '9' d = true := by
  unfold CreditCard.genPrefixOk at h
  split at h
  · rename_i heq; exact CreditCard.CardKind.noConfusion heq
  · rename_i heq; exact CreditCard.CardKind.noConfusion heq
  · rename_i heq; exact CreditCard.CardKind.noConfusion heq
  · rename_i heq; exact CreditCard.CardKind.noConfusion heq
  · split at h
    · rename_i c d
      rw [Bool.and_eq_true] at h
      exact ⟨c, d, rfl, h.1, h.2⟩
    · simp at h
  · rename_i heq; exact CreditCard.CardKind.noConfusion heq

theorem genPrefixOk_diners_shape {p : List Char}
    (h : CreditCard.genPrefixOk .diners p = true) :
    ∃ c, p = ['3', c] ∧ (c = '0' ∨ c = '6' ∨ c = '8' ∨ c = '9') := by
  unfold CreditCard.genPrefixOk at h
  split at h
  · rename_i heq; exact CreditCard.CardKind.noConfusion heq
  · rename_i heq; exact CreditCard.CardKind.noConfusion heq
  · rename_i heq; exact CreditCard.CardKind.noConfusion heq
  · rename_i heq; exact CreditCard.CardKind.noConfusion heq
  · rename_i heq; exact CreditCard.CardKind.noConfusion heq
  · split at h
    · rename_i c
      simp only [Bool.or_eq_true, decide_eq_true_eq] at h
      exact ⟨c, rfl, by tauto⟩
    · simp at h

theorem cc_generate_valid {k : CreditCard.CardKind} {pfx : List Char}
    (rnd : Nat → Fin 10) (h : CreditCard.genPrefixOk k pfx = true) :
    CreditCard.validate (CreditCard.generate k pfx rnd) = true := by
  cases k with
  | visa =>
    simp only [CreditCard.genPrefixOk, decide_eq_true_eq] at h
    subst h
    rw [cc_generate_eq .visa ['4'] rnd (by decide)]
    refine cc_validate_of_format (cc_gen_digits rnd (by decide)) (by simp)
      cc_detect_visa ?_ (luhn_check_append _)
    rw [cc_gen_payload_len .visa ['4'] rnd (by decide)]
    decide
  | mastercard =>
    obtain ⟨c, rfl, hc⟩ := genPrefixOk_mastercard_shape h
    have hdigc : isDigitChar c = true := by
      have e1 : ('1' : Char).toNat = 49 := rfl
      have e5 : ('5' : Char).toNat = 53 := rfl
      simp only [CreditCard.charBetween, Bool.and_eq_true, decide_eq_true_eq,
        e1, e5] at hc
      simp only [isDigitChar, Bool.and_eq_true, decide_eq_true_eq]
      omega
    have hlt : (['5', c] : List Char).length
        < (CreditCard.cardInfo .mastercard).lengths.headD 0 - 1 := by
      have h13 := (cc_lengths_facts .mastercard).1
      simp only [List.length_cons, List.length_nil]
      omega
    rw [cc_generate_eq .mastercard ['5', c] rnd hlt]
    refine cc_validate_of_format
      (cc_gen_digits rnd
        (by rw [List.all_cons, List.all_cons, List.all_nil, hdigc]; decide))
      (by simp) (cc_detect_mastercard hc) ?_ (luhn_check_append _)
    rw [cc_gen_payload_len .mastercard ['5', c] rnd hlt]
    decide
  | amex =>
    simp only [CreditCard.genPrefixOk, Bool.or_eq_true, decide_eq_true_eq] at h
    rcases h with rfl | rfl
    · rw [cc_generate_eq .amex "34".toList rnd (by decide)]
      refine cc_validate_of_format (cc_gen_digits rnd (by decide)) (by simp)
        (cc_detect_amex (Or.inl rfl)) ?_ (luhn_check_append _)
      rw [cc_gen_payload_len .amex "34".toList rnd (by decide)]
      decide
    · rw [cc_generate_eq .amex "37".toList rnd (by decide)]
      refine cc_validate_of_format (cc_gen_digits rnd (by decide)) (by simp)
        (cc_detect_amex (Or.inr rfl)) ?_ (luhn_check_append _)
      rw [cc_gen_payload_len .amex "37".toList rnd (by decide)]
      decide
  | discover =>
    simp only [CreditCard.genPrefixOk, decide_eq_true_eq] at h
    subst h
    rw [cc_generate_eq .discover "6011".toList rnd (by decide)]
    refine cc_validate_of_format (cc_gen_digits rnd (by decide)) (by simp)
      cc_detect_discover ?_ (luhn_check_append _)
    rw [cc_gen_payload_len .discover "6011".toList rnd (by decide)]
    decide
  | jcb =>
    obtain ⟨c, d, rfl, hc, hd⟩ := genPrefixOk_jcb_shape h
    have hdigc : isDigitChar c = true := by
      have e2 : ('2' : Char).toNat = 50 := rfl
      have e8 : ('8' : Char).toNat = 56 := rfl
      simp only [CreditCard.charBetween, Bool.and_eq_true, decide_eq_true_eq,
        e2, e8] at hc
      simp only [isDigitChar, Bool.and_eq_true, decide_eq_true_eq]
      omega
    have hdigd : isDigitChar d = true := by
      have e8 : ('8' : Char).toNat = 56 := rfl
      have e9 : ('9' : Char).toNat = 57 := rfl
      simp only [CreditCard.charBetween, Bool.and_eq_true, decide_eq_true_eq,
        e8, e9] at hd
      simp only [isDigitChar, Bool.and_eq_true, decide_eq_true_eq]
      omega
    have hlt : (['3', '5', c, d] : List Char).length
        < (CreditCard.cardInfo .jcb).lengths.headD 0 - 1 := by
      have h13 := (cc_lengths_facts .jcb).1
      simp only [List.length_cons, List.length_nil]
      omega
    rw [cc_generate_eq .jcb ['3', '5', c, d] rnd hlt]
    refine cc_validate_of_format
      (cc_gen_digits rnd
        (by rw [List.all_cons, List.all_cons, List.all_cons, List.all_cons,
              List.all_nil, hdigc, hdigd]; decide))
      (by simp) (cc_detect_jcb hc hd) ?_ (luhn_check_append _)
    rw [cc_gen_payload_len .jcb ['3', '5', c, d] rnd hlt]
    decide
  | diners =>
    obtain ⟨c, rfl, hc⟩ := genPrefixOk_diners_shape h
    have hdigc : isDigitChar c = true := by
      rcases hc with rfl | rfl | rfl | rfl <;> decide
    have hlt : (['3', c] : List Char).length
        < (CreditCard.cardInfo .diners).lengths.headD 0 - 1 := by
      have h13 := (cc_lengths_facts .diners).1
      simp only [List.length_cons, List.length_nil]
      omega
    rw [cc_generate_eq .diners ['3', c] rnd hlt]
    refine cc_validate_of_format
      (cc_gen_digits rnd
        (by rw [List.all_cons, List.all_cons, List.all_nil, hdigc]; decide))
      (by simp) (cc_detect_diners hc) ?_ (luhn_check_append _)
    rw [cc_gen_payload_len .diners ['3', c] rnd hlt]
    decide

/-! ## Padding helpers -/

theorem padEndList_length {s : List Char} {n : Nat} (h : s.length ≤ n)
    (fill : Char) : (padEndList s n fill).length = n := by
  unfold padEndList
  rw [List.length_append, List.length_replicate]
  omega

theorem padEndList_of_le {s : List Char} {n : Nat} (h : n ≤ s.length)
    (fill : Char) : padEndList s n fill = s := by
  unfold padEndList
  rw [Nat.sub_eq_zero_of_le h]
  simp

theorem padEndList_digits {s : List Char} {n : Nat}
    (h : s.all isDigitChar = true) :
    (padEndList s n '0').all isDigitChar = true := by
  unfold padEndList
  rw [List.all_append]
  simp only [Bool.and_eq_true, List.all_eq_true]
  refine ⟨List.all_eq_true.mp h, fun c hc => ?_⟩
  rw [List.eq_of_mem_replicate hc]
  decide

theorem padTrunc_length (n : Nat) (s : List Char) (rnd : Nat → Fin 10) :
    (Ean.padTrunc n s rnd).length = n := by
  unfold Ean.padTrunc
  split
  · rw [List.length_append, padDigits_length]
    omega
  · rw [List.length_take]
    omega

theorem padTrunc_digits {n : Nat} {s : List Char} (rnd : Nat → Fin 10)
    (h : s.all isDigitChar = true) :
    (Ean.padTrunc n s rnd).all isDigitChar = true := by
  unfold Ean.padTrunc
  split
  · rw [List.all_append]
    simp [h, padDigits_all_digits]
  · simp only [List.all_eq_true] at h ⊢
    intro c hc
    exact h c (List.take_subset n s hc)

/-! ## TCKN/VKN: `complete` succeeds on the prefixes `generate` draws -/

theorem tckn_complete_succeeds {pfx : List Char} (h9 : pfx.length = 9)
    (hd : pfx.all isDigitChar = true) (h0 : pfx.take 1 ≠ ['0'])
    (hm : pfx ∉ Tckn.INVALID_PREFIXES) :
    Tckn.complete pfx = .ok (pfx ++ [digitChar (Tckn.calculateCheckDigits pfx).1,
      digitChar (Tckn.calculateCheckDigits pfx).2]) := by
  unfold Tckn.complete
  rw [if_neg (not_not.mpr ⟨h9, hd⟩), if_neg h0, if_neg hm]

theorem vkn_complete_succeeds {pfx : List Char} (h9 : pfx.length = 9)
    (hd : pfx.all isDigitChar = true) :
    Vkn.complete pfx = .ok (pfx ++ [digitChar (Vkn.calculateCheckDigit pfx)]) := by
  unfold Vkn.complete
  rw [if_neg (not_not.mpr ⟨h9, hd⟩)]

/-! ## IMEI: generation produces validating output -/

theorem imei_format_valid {payload : List Char} (h14 : payload.length = 14)
    (hd : payload.all isDigitChar = true) :
    Imei.validate (Imei.formatImei
      (payload ++ [digitChar (calculateLuhnCheckDigit payload)])) = true := by
  have hcd : calculateLuhnCheckDigit payload < 10 := Nat.mod_lt _ (by norm_num)
  have hzdig : (payload ++ [digitChar (calculateLuhnCheckDigit payload)]).all
      isDigitChar = true := by
    rw [List.all_append]
    simp [hd, isDigitChar_digitChar hcd]
  have hzlen : (payload ++ [digitChar (calculateLuhnCheckDigit payload)]).length
      = 15 := by
    simp [h14]
  have hclean : Imei.cleanInput (Imei.formatImei
      (payload ++ [digitChar (calculateLuhnCheckDigit payload)]))
      = payload ++ [digitChar (calculateLuhnCheckDigit payload)] := by
    unfold Imei.cleanInput
    rw [imei_filter_format (by decide)]
    exact imei_clean_of_digits hzdig
  unfold Imei.validate
  rw [hclean]
  rw [if_neg (by intro hnil; rw [hnil] at hzlen; simp at hzlen),
    if_neg (not_not.mpr ⟨hzlen, hzdig⟩)]
  exact luhn_check_append payload

theorem imei_tacs_ok :
    ∀ t ∈ Imei.COMMON_TACS, t.length = 8 ∧ t.all isDigitChar = true := by
  decide

theorem imei_generate_valid {tac serial : List Char}
    (htac : tac ∈ Imei.COMMON_TACS)
    (hs6 : serial.length = 6) (hsd : serial.all isDigitChar = true) :
    Imei.validate (Imei.generate tac serial) = true := by
  obtain ⟨h8, hd8⟩ := imei_tacs_ok tac htac
  unfold Imei.generate
  simp only []
  refine imei_format_valid ?_ ?_
  · rw [List.length_append, h8, hs6]
  · rw [List.all_append]
    simp [hd8, hsd]

/-! ## ISBN: generation produces validating output -/

theorem isbn10_generate_valid {grp pub title : List Char}
    (hd : (grp ++ pub ++ title).all isDigitChar = true)
    (hlen : (grp ++ pub ++ title).length ≤ 9) :
    Isbn.validate (Isbn.generateIsbn10 grp pub title) = true := by
  unfold Isbn.generateIsbn10
  simp only []
  exact (isbn10_round (padEndList_length hlen '0') (padEndList_digits hd)).2

theorem isbn13_generate_valid {pre grp pub title : List Char}
    (hpre : pre = "978".toList ∨ pre = "979".toList)
    (hd : (pre ++ grp ++ pub ++ title).all isDigitChar = true)
    (hlen : (pre ++ grp ++ pub ++ title).length ≤ 12) :
    Isbn.validate (Isbn.generateIsbn13 pre grp pub title) = true := by
  unfold Isbn.generateIsbn13
  simp only []
  refine (isbn13_round (padEndList_length hlen '0') (padEndList_digits hd) ?_).2
  have h3 : pre.length = 3 := by rcases hpre with rfl | rfl <;> rfl
  unfold Isbn.startsWith978or979 padEndList
  simp only [List.append_assoc]
  rw [List.take_left' h3]
  rcases hpre with rfl | rfl <;> simp

/-! ## EAN: generation produces validating output -/

theorem ean13_generate_valid {pre manuf prodCode : List Char}
    (rnd : Nat → Fin 10)
    (hp : pre.all isDigitChar = true) (hm : manuf.all isDigitChar = true)
    (hq : prodCode.all isDigitChar = true) :
    Ean.validate (Ean.generateEan13 pre manuf prodCode rnd) = true := by
  unfold Ean.generateEan13
  simp only []
  refine (ean13_round (padTrunc_length 12 _ rnd) (padTrunc_digits rnd ?_)).2
  rw [List.all_append, List.all_append]
  simp [hp, hm, hq]

theorem upcA_generate_valid {manuf prodCode : List Char} (first : Fin 10)
    (hm5 : manuf.length = 5) (hp5 : prodCode.length = 5)
    (hm : manuf.all isDigitChar = true) (hp : prodCode.all isDigitChar = true) :
    Ean.validate (Ean.generateUpcA first manuf prodCode) = true := by
  unfold Ean.generateUpcA
  simp only []
  refine (eanUpcA_round ?_ ?_).2
  · rw [List.length_cons, List.length_append, hm5, hp5]
  · rw [List.all_cons, List.all_append]
    simp [isDigitChar_digitChar first.isLt, hm, hp]

theorem ean8_generate_valid {country manuf prodCode : List Char}
    (rnd : Nat → Fin 10)
    (hc : country.all isDigitChar = true) (hm : manuf.all isDigitChar = true)
    (hq : prodCode.all isDigitChar = true) :
    Ean.validate (Ean.generateEan8 country manuf prodCode rnd) = true := by
  unfold Ean.generateEan8
  simp only []
  refine (ean8_round (padTrunc_length 7 _ rnd) (padTrunc_digits rnd ?_)).2
  rw [List.all_append, List.all_append]
  simp [hc, hm, hq]

/-! ## IBAN bank codes -/

theorem iban_banks_ok :
    ∀ b ∈ Iban.BANK_CODES, b.length = 5 ∧ b.all isDigitChar = true := by
  decide

/-! ## ISBN/EAN: full completion properties -/

theorem isbn_complete_full {part : List Char} {rnd : Nat → Fin 10} {r : List Char}
    (hdig : (Isbn.cleanInput part).all isDigitChar = true)
    (hp : 10 ≤ (Isbn.cleanInput part).length →
      Isbn.startsWith978or979 (Isbn.cleanInput part) = true)
    (h : Isbn.complete part rnd = .ok r) :
    (Isbn.cleanInput part).isPrefixOf (Isbn.cleanInput r) = true ∧
      Isbn.validate r = true := by
  rcases isbn_complete_ok h with ⟨h3, h10, rfl⟩ | ⟨h10, h13, rfl⟩
  · unfold Isbn.completeAsIsbn10
    simp only []
    by_cases h9 : 9 ≤ (Isbn.cleanInput part).length
    · rw [if_pos h9, padEndList_of_le h9 '0']
      have h99 : (Isbn.cleanInput part).length = 9 := by omega
      obtain ⟨hclean, hval⟩ := isbn10_round h99 hdig
      rw [hclean]
      exact ⟨isPrefixOf_append _ _, hval⟩
    · rw [if_neg h9]
      have hlen : (Isbn.cleanInput part ++
          padDigits rnd (9 - (Isbn.cleanInput part).length)).length = 9 := by
        rw [List.length_append, padDigits_length]
        omega
      have hdd : (Isbn.cleanInput part ++
          padDigits rnd (9 - (Isbn.cleanInput part).length)).all isDigitChar = true := by
        rw [List.all_append]
        simp [hdig, padDigits_all_digits]
      obtain ⟨hclean, hval⟩ := isbn10_round hlen hdd
      rw [hclean]
      refine ⟨?_, hval⟩
      rw [List.append_assoc]
      exact isPrefixOf_append _ _
  · have hsw := hp h10
    unfold Isbn.completeAsIsbn13
    simp only []
    rw [if_pos hsw]
    by_cases h12 : 12 ≤ (Isbn.cleanInput part).length
    · rw [if_pos h12]
      have h12e : (Isbn.cleanInput part).length = 12 := by omega
      have htake : (Isbn.cleanInput part).take 12 = Isbn.cleanInput part :=
        List.take_of_length_le (by omega)
      rw [htake]
      obtain ⟨hclean, hval⟩ := isbn13_round h12e hdig hsw
      rw [hclean]
      exact ⟨isPrefixOf_append _ _, hval⟩
    · rw [if_neg h12]
      have hlen : (Isbn.cleanInput part ++
          padDigits rnd (12 - (Isbn.cleanInput part).length)).length = 12 := by
        rw [List.length_append, padDigits_length]
        omega
      have hdd : (Isbn.cleanInput part ++
          padDigits rnd (12 - (Isbn.cleanInput part).length)).all isDigitChar = true := by
        rw [List.all_append]
        simp [hdig, padDigits_all_digits]
      have hsw2 := startsWith978or979_append
        (padDigits rnd (12 - (Isbn.cleanInput part).length)) (by omega) hsw
      obtain ⟨hclean, hval⟩ := isbn13_round hlen hdd hsw2
      rw [hclean]
      refine ⟨?_, hval⟩
      rw [List.append_assoc]
      exact isPrefixOf_append _ _

theorem ean8_complete_props {c : List Char} (rnd : Nat → Fin 10)
    (hd : c.all isDigitChar = true) (hlt : c.length < 7) :
    (Ean.cleanInput (Ean.completeAsEan8 c rnd)).length = 8 ∧
    c.isPrefixOf (Ean.cleanInput (Ean.completeAsEan8 c rnd)) = true ∧
    Ean.validate (Ean.completeAsEan8 c rnd) = true := by
  unfold Ean.completeAsEan8 Ean.completeTo
  rw [if_neg (by omega)]
  simp only []
  have hlen : (c ++ padDigits rnd (7 - c.length)).length = 7 := by
    rw [List.length_append, padDigits_length]
    omega
  have hdd : (c ++ padDigits rnd (7 - c.length)).all isDigitChar = true := by
    rw [List.all_append]
    simp [hd, padDigits_all_digits]
  obtain ⟨hclean, hval⟩ := ean8_round hlen hdd
  rw [hclean]
  refine ⟨?_, ?_, hval⟩
  · rw [List.length_append, hlen]
    rfl
  · rw [List.append_assoc]
    exact isPrefixOf_append _ _

theorem ean13_complete_props {c : List Char} (rnd : Nat → Fin 10)
    (hd : c.all isDigitChar = true) (hlt : c.length < 12) :
    (Ean.cleanInput (Ean.completeAsEan13 c rnd)).length = 13 ∧
    c.isPrefixOf (Ean.cleanInput (Ean.completeAsEan13 c rnd)) = true ∧
    Ean.validate (Ean.completeAsEan13 c rnd) = true := by
  unfold Ean.completeAsEan13 Ean.completeTo
  rw [if_neg (by omega)]
  simp only []
  have hlen : (c ++ padDigits rnd (12 - c.length)).length = 12 := by
    rw [List.length_append, padDigits_length]
    omega
  have hdd : (c ++ padDigits rnd (12 - c.length)).all isDigitChar = true := by
    rw [List.all_append]
    simp [hd, padDigits_all_digits]
  obtain ⟨hclean, hval⟩ := ean13_round hlen hdd
  rw [hclean]
  refine ⟨?_, ?_, hval⟩
  · rw [List.length_append, hlen]
    rfl
  · rw [List.append_assoc]
    exact isPrefixOf_append _ _

theorem ean_complete_full {part : List Char} {rnd : Nat → Fin 10} {r : List Char}
    (hdig : (Ean.cleanInput part).all isDigitChar = true)
    (h : Ean.complete part rnd = .ok r) :
    (Ean.cleanInput part).isPrefixOf (Ean.cleanInput r) = true ∧
      Ean.validate r = true := by
  rcases ean_complete_ok h with ⟨h3, h7, rfl⟩ | ⟨h7, h12, rfl⟩
  · obtain ⟨_, hpre, hval⟩ := ean8_complete_props rnd hdig h7
    exact ⟨hpre, hval⟩
  · obtain ⟨_, hpre, hval⟩ := ean13_complete_props rnd hdig h12
    exact ⟨hpre, hval⟩

/-! ## Credit card: the Visa completion target -/

theorem cc_detect_visa_clean {c : List Char} (h4 : c.take 1 = ['4']) :
    CreditCard.detectCardType c = some (CreditCard.cardInfo .visa) := by
  have hm : CreditCard.matchesVisa c = true := by
    unfold CreditCard.matchesVisa
    simp [h4]
  unfold CreditCard.detectCardType
  rw [if_pos hm]

theorem cc_complete_visa {input : List Char} (rnd : Nat → Fin 10)
    (hdig : (CreditCard.cleanInput input).all isDigitChar = true)
    (h4 : (CreditCard.cleanInput input).take 1 = ['4'])
    (hge : 4 ≤ (CreditCard.cleanInput input).length)
    (hle : (CreditCard.cleanInput input).length ≤ 12) :
    ∃ r, CreditCard.complete input rnd = .ok r ∧
      (CreditCard.cleanInput input).isPrefixOf (CreditCard.cleanInput r) = true ∧
      (CreditCard.cleanInput r).length = 13 ∧
      CreditCard.validate r = true := by
  have hok : ∃ r, CreditCard.complete input rnd = .ok r := by
    unfold CreditCard.complete
    simp only []
    rw [if_neg, cc_detect_visa_clean h4]
    · simp only []
      rw [if_neg]
      · exact ⟨_, rfl⟩
      · have ht : (CreditCard.cardInfo CreditCard.CardKind.visa).lengths.headD 0
            = 13 := rfl
        rw [ht]
        omega
    · intro hcon
      rcases hcon with hnil | hlt
      · rw [hnil] at hge
        simp at hge
      · omega
  obtain ⟨r, hr⟩ := hok
  obtain ⟨info, hdet, hpre, hlen, hval⟩ := cc_complete_full hdig hr
  rw [cc_detect_visa_clean h4] at hdet
  have hinfo := Option.some.inj hdet
  rw [← hinfo] at hlen
  exact ⟨r, hr, hpre, by rw [hlen]; rfl, hval⟩

theorem cc_complete_visa_err {input : List Char} (rnd : Nat → Fin 10)
    (h4 : (CreditCard.cleanInput input).take 1 = ['4'])
    (h13 : (CreditCard.cleanInput input).length = 13) :
    CreditCard.complete input rnd
      = .error "Kredi kartı numarası zaten tamamlanmış" := by
  unfold CreditCard.complete
  simp only []
  rw [if_neg, cc_detect_visa_clean h4]
  · simp only []
    rw [if_pos]
    have ht : (CreditCard.cardInfo CreditCard.CardKind.visa).lengths.headD 0
        = 13 := rfl
    rw [ht, h13]
  · intro hcon
    rcases hcon with hnil | hlt
    · rw [hnil] at h13
      simp at h13
    · omega

/-! ## The claims -/

/-- C1, counterexample: the bank-account service violates the round-trip
property — `IbanService.complete "123"` returns
`TR123000000000000000000000` (prepend `TR`, zero-pad to 24 digits)
without recomputing the check digits, and `IbanService.validate`
rejects that string. -/
theorem claim_C1_counterexample :
    Iban.validate (Iban.complete "123".toList (fun _ => (0 : Fin 10))) = false := by
  rw [iban_validate_eq_spec]
  decide

/-- C1 (amended): for the TCKN, VKN, credit-card, IMEI, ISBN and EAN
services, every accepted completion starts with the cleaned prefix and
validates — for credit card, IMEI, ISBN and EAN on digit prefixes, and
for ISBN partials of cleaned length 10–12 only when they already carry
a `978`/`979` prefix (otherwise `978` is silently prepended and the
output does not start with the input).  The IBAN service is excluded:
its lenient `complete` has branches that return non-validating
strings. -/
theorem claim_C1_amended :
    (∀ pfx r, Tckn.complete pfx = .ok r →
      pfx.isPrefixOf r = true ∧ Tckn.validate r = true) ∧
    (∀ pfx r, Vkn.complete pfx = .ok r →
      pfx.isPrefixOf r = true ∧ Vkn.validate r = true) ∧
    (∀ input rnd r, (CreditCard.cleanInput input).all isDigitChar = true →
      CreditCard.complete input rnd = .ok r →
      (CreditCard.cleanInput input).isPrefixOf (CreditCard.cleanInput r) = true ∧
        CreditCard.validate r = true) ∧
    (∀ input rnd r, (Imei.cleanInput input).all isDigitChar = true →
      Imei.complete input rnd = .ok r →
      (Imei.cleanInput input).isPrefixOf (Imei.cleanInput r) = true ∧
        Imei.validate r = true) ∧
    (∀ part rnd r, (Isbn.cleanInput part).all isDigitChar = true →
      (10 ≤ (Isbn.cleanInput part).length →
        Isbn.startsWith978or979 (Isbn.cleanInput part) = true) →
      Isbn.complete part rnd = .ok r →
      (Isbn.cleanInput part).isPrefixOf (Isbn.cleanInput r) = true ∧
        Isbn.validate r = true) ∧
    (∀ part rnd r, (Ean.cleanInput part).all isDigitChar = true →
      Ean.complete part rnd = .ok r →
      (Ean.cleanInput part).isPrefixOf (Ean.cleanInput r) = true ∧
        Ean.validate r = true) := by
  refine ⟨?_, ?_, ?_, ?_, ?_, ?_⟩
  · intro pfx r h
    obtain ⟨h9, hd, h0, hm, rfl⟩ := tckn_complete_ok h
    exact ⟨isPrefixOf_append _ _, tckn_validate_complete h⟩
  · intro pfx r h
    obtain ⟨h9, hd, rfl⟩ := vkn_complete_ok h
    exact ⟨isPrefixOf_append _ _, vkn_validate_complete h⟩
  · intro input rnd r hdig h
    obtain ⟨info, _, hpre, _, hval⟩ := cc_complete_full hdig h
    exact ⟨hpre, hval⟩
  · intro input rnd r hdig h
    obtain ⟨hpre, _, hval⟩ := imei_complete_full hdig h
    exact ⟨hpre, hval⟩
  · intro part rnd r hdig hp h
    exact isbn_complete_full hdig hp h
  · intro part rnd r hdig h
    exact ean_complete_full hdig h

/-- C2: every service's `generate` emits a validating string for every
outcome of the random source, stated per service over the values the
code draws — TCKN/VKN: a 9-digit prefix meeting the retry loop's exit
condition; IBAN: a bank code of `BANK_CODES` plus 16 random digits;
credit card: any network with a prefix its pattern dispatch can emit;
IMEI: a TAC of `COMMON_TACS` plus 6 random digits; ISBN and EAN: the
drawn digit components of each variant. -/
theorem claim_C2 :
    (∀ pfx, pfx.length = 9 → pfx.all isDigitChar = true →
      pfx.take 1 ≠ ['0'] → pfx ∉ Tckn.INVALID_PREFIXES →
      ∃ r, Tckn.generate pfx = .ok r ∧ Tckn.validate r = true) ∧
    (∀ pfx, pfx.length = 9 → pfx.all isDigitChar = true →
      ∃ r, Vkn.generate pfx = .ok r ∧ Vkn.validate r = true) ∧
    (∀ bank ∈ Iban.BANK_CODES, ∀ rnd,
      Iban.validate (Iban.generate bank (padDigits rnd 16)) = true) ∧
    (∀ k pfx rnd, CreditCard.genPrefixOk k pfx = true →
      CreditCard.validate (CreditCard.generate k pfx rnd) = true) ∧
    (∀ tac ∈ Imei.COMMON_TACS, ∀ rnd,
      Imei.validate (Imei.generate tac (padDigits rnd 6)) = true) ∧
    (∀ grp pub title, (grp ++ pub ++ title).all isDigitChar = true →
      (grp ++ pub ++ title).length ≤ 9 →
      Isbn.validate (Isbn.generateIsbn10 grp pub title) = true) ∧
    (∀ pre grp pub title, (pre = "978".toList ∨ pre = "979".toList) →
      (pre ++ grp ++ pub ++ title).all isDigitChar = true →
      (pre ++ grp ++ pub ++ title).length ≤ 12 →
      Isbn.validate (Isbn.generateIsbn13 pre grp pub title) = true) ∧
    (∀ pre manuf prodCode rnd, pre.all isDigitChar = true →
      manuf.all isDigitChar = true → prodCode.all isDigitChar = true →
      Ean.validate (Ean.generateEan13 pre manuf prodCode rnd) = true) ∧
    (∀ (first : Fin 10) manuf prodCode, manuf.length = 5 → prodCode.length = 5 →
      manuf.all isDigitChar = true → prodCode.all isDigitChar = true →
      Ean.validate (Ean.generateUpcA first manuf prodCode) = true) ∧
    (∀ country manuf prodCode rnd, country.all isDigitChar = true →
      manuf.all isDigitChar = true → prodCode.all isDigitChar = true →
      Ean.validate (Ean.generateEan8 country manuf prodCode rnd) = true) := by
  refine ⟨?_, ?_, ?_, ?_, ?_, ?_, ?_, ?_, ?_, ?_⟩
  · intro pfx h9 hd h0 hm
    exact ⟨_, tckn_complete_succeeds h9 hd h0 hm,
      tckn_validate_complete (tckn_complete_succeeds h9 hd h0 hm)⟩
  · intro pfx h9 hd
    exact ⟨_, vkn_complete_succeeds h9 hd,
      vkn_validate_complete (vkn_complete_succeeds h9 hd)⟩
  · intro bank hb rnd
    obtain ⟨h5, hbd⟩ := iban_banks_ok bank hb
    exact iban_generate_valid h5 hbd (padDigits_length rnd 16)
      (padDigits_all_digits rnd 16)
  · intro k pfx rnd h
    exact cc_generate_valid rnd h
  · intro tac ht rnd
    exact imei_generate_valid ht (padDigits_length rnd 6)
      (padDigits_all_digits rnd 6)
  · intro grp pub title hd hl
    exact isbn10_generate_valid hd hl
  · intro pre grp pub title hpre hd hl
    exact isbn13_generate_valid hpre hd hl
  · intro pre manuf prodCode rnd hp hm hq
    exact ean13_generate_valid rnd hp hm hq
  · intro first manuf prodCode h5 h5b hm hp
    exact upcA_generate_valid first h5 h5b hm hp
  · intro country manuf prodCode rnd hc hm hq
    exact ean8_generate_valid rnd hc hm hq

/-- C3, counterexample: `CreditCardService.validate` also throws on
null/undefined input (`cleanInput` calls `input.replace` with no type
guard and no `try/catch` on the validate path), contradicting the claim
that only the ISBN and EAN validators throw. -/
theorem claim_C3_counterexample : creditCardValidateJs none = .error () := rfl

/-- C3 (amended): the TCKN and VKN validators (via `String(value)`
coercion) and the IBAN validator (via its `try/catch`) never throw and
return a boolean on any input, null/undefined included; the
credit-card, IMEI, ISBN and EAN validators all throw a `TypeError` on
null/undefined input. -/
theorem claim_C3_amended :
    (∀ o, ∃ b, tcknValidateJs o = .ok b) ∧
    (∀ o, ∃ b, vknValidateJs o = .ok b) ∧
    (∀ o, ∃ b, ibanValidateJs o = .ok b) ∧
    tcknValidateJs none = .ok false ∧
    vknValidateJs none = .ok false ∧
    ibanValidateJs none = .ok false ∧
    creditCardValidateJs none = .error () ∧
    imeiValidateJs none = .error () ∧
    isbnValidateJs none = .error () ∧
    eanValidateJs none = .error () := by
  refine ⟨?_, ?_, ?_, rfl, rfl, rfl, rfl, rfl, rfl, rfl⟩
  · intro o
    cases o <;> exact ⟨_, rfl⟩
  · intro o
    cases o <;> exact ⟨_, rfl⟩
  · intro o
    cases o <;> exact ⟨_, rfl⟩

/-- C4: `IbanService.validate` equals the specification's acceptance
condition on every input — `TR` + 24 digits, reserved digit at position
10 equal to `0`, and the true (big-integer) mod 97 of the rearranged,
letter-converted string equal to 1; the chunked loop computes exactly
that remainder — and accepts `TR320010009999901234567890`. -/
theorem claim_C4 :
    (∀ s, Iban.validate s = Iban.validateSpec s) ∧
    Iban.validate "TR320010009999901234567890".toList = true := by
  refine ⟨iban_validate_eq_spec, ?_⟩
  rw [iban_validate_eq_spec]
  decide

/-- C5: `TcknService.calculateCheckDigits` computes the specification's
closed t1/t2 formulas on every 9-character prefix, `validate` accepts
an 11-digit string exactly when the first digit is not `0`, the string
is not denylisted and digits 10 and 11 equal those check digits, and
`complete "123456789"` appends `5` then `0`. -/
theorem claim_C5 :
    (∀ pfx, pfx.length = 9 →
      Tckn.calculateCheckDigits pfx = (Tckn.c10Spec pfx, Tckn.c11Spec pfx)) ∧
    (∀ s, s.length = 11 → s.all isDigitChar = true →
      (Tckn.validate s = true ↔
        (s.take 1 ≠ ['0'] ∧ s ∉ Tckn.INVALID_PATTERNS ∧
         digitVal (s.getD 9 '0') = Tckn.c10Spec (s.take 9) ∧
         digitVal (s.getD 10 '0') = Tckn.c11Spec (s.take 9)))) ∧
    Tckn.complete "123456789".toList = .ok "12345678950".toList := by
  refine ⟨fun pfx h => tckn_cd_spec h, fun s h hd => tckn_validate_iff h hd, ?_⟩
  rfl

/-- C6, counterexample: a partial of cleaned length 2 is not completed
to an EAN-8 — `EanService.complete` rejects every cleaned length below
3 — so the claimed routing "every cleaned length < 7 → EAN-8" is
wrong. -/
theorem claim_C6_counterexample :
    Ean.complete "12".toList (fun _ => (0 : Fin 10))
      = .error "Girilen kısmi EAN/UPC numarası tamamlanamıyor" := rfl

/-- C6 (amended): `EanService.complete` routes cleaned length 3–6 to an
8-character EAN-8 and cleaned length 7–11 to a 13-character EAN-13, and
errors on every other length; the source's UPC-A branch (length 3–11)
is dead code — its range is fully covered by the first two branches, so
`complete` never produces a UPC-A; each live target pads with random
digits to its data length and appends the 3/1-weighted check digit. -/
theorem claim_C6_amended :
    (∀ part rnd, 3 ≤ (Ean.cleanInput part).length →
      (Ean.cleanInput part).length < 7 →
      Ean.complete part rnd = .ok (Ean.completeAsEan8 (Ean.cleanInput part) rnd)) ∧
    (∀ part rnd, 7 ≤ (Ean.cleanInput part).length →
      (Ean.cleanInput part).length < 12 →
      Ean.complete part rnd = .ok (Ean.completeAsEan13 (Ean.cleanInput part) rnd)) ∧
    (∀ part rnd, (Ean.cleanInput part).length < 3 ∨
      12 ≤ (Ean.cleanInput part).length →
      Ean.complete part rnd = .error "Girilen kısmi EAN/UPC numarası tamamlanamıyor") ∧
    (∀ part rnd r, Ean.complete part rnd = .ok r →
      r = Ean.completeAsEan8 (Ean.cleanInput part) rnd ∨
      r = Ean.completeAsEan13 (Ean.cleanInput part) rnd) ∧
    (∀ c rnd, c.all isDigitChar = true → c.length < 7 →
      (Ean.cleanInput (Ean.completeAsEan8 c rnd)).length = 8 ∧
      Ean.validate (Ean.completeAsEan8 c rnd) = true) ∧
    (∀ c rnd, c.all isDigitChar = true → c.length < 12 →
      (Ean.cleanInput (Ean.completeAsEan13 c rnd)).length = 13 ∧
      Ean.validate (Ean.completeAsEan13 c rnd) = true) := by
  refine ⟨?_, ?_, ?_, ?_, ?_, ?_⟩
  · intro part rnd h3 h7
    unfold Ean.complete
    simp only []
    rw [if_pos ⟨h3, h7⟩]
  · intro part rnd h7 h12
    unfold Ean.complete
    simp only []
    rw [if_neg (by omega), if_pos ⟨h7, h12⟩]
  · intro part rnd hor
    unfold Ean.complete
    simp only []
    rw [if_neg (by omega), if_neg (by omega), if_neg (by omega)]
  · intro part rnd r h
    rcases ean_complete_ok h with ⟨_, _, rfl⟩ | ⟨_, _, rfl⟩
    · exact Or.inl rfl
    · exact Or.inr rfl
  · intro c rnd hd hlt
    obtain ⟨hl, _, hv⟩ := ean8_complete_props rnd hd hlt
    exact ⟨hl, hv⟩
  · intro c rnd hd hlt
    obtain ⟨hl, _, hv⟩ := ean13_complete_props rnd hd hlt
    exact ⟨hl, hv⟩

/-- C7: whenever the cleaned, uppercased input starts with `TR`,
`detectPossibleServiceTypes` returns exactly `[iban]`, short-circuiting
every other check; in particular it does so on
`TR5500010085118102514836` (length 24, not 26), where
`detectServiceType` therefore answers IBAN. -/
theorem claim_C7 :
    (∀ input, Iban.startsWithTR
        ((input.filter (fun ch => !isWsChar ch)).map jsUpper) = true →
      Factory.detectPossibleServiceTypes input = [ServiceType.iban]) ∧
    Factory.detectPossibleServiceTypes "TR5500010085118102514836".toList
      = [ServiceType.iban] ∧
    Factory.detectServiceType "TR5500010085118102514836".toList
      = some ServiceType.iban := by
  refine ⟨fun input h => detect_TR h, ?_, ?_⟩ <;> decide

/-- C8: `IbanService.complete` is total (it returns a string on every
input, modelled by its total type) and follows exactly the four
branches the claim lists: the fixed fallback IBAN for empty cleaned
input, `TR` plus zero-padding to 24 digits when the country prefix is
missing, a freshly generated checksum-valid IBAN when the input starts
with `TR` but is shorter than 26 characters, and pass-through
formatting otherwise. -/
theorem claim_C8 :
    (∀ pfx rnd, Iban.clean pfx = [] →
      Iban.complete pfx rnd = "TR320010009999901234567890".toList) ∧
    (∀ pfx rnd, Iban.startsWithTR (Iban.clean pfx) = false →
      Iban.clean pfx ≠ [] →
      Iban.complete pfx rnd = 'T' :: 'R' :: padEndList (Iban.clean pfx) 24 '0') ∧
    (∀ pfx rnd, Iban.startsWithTR (Iban.clean pfx) = true →
      (Iban.clean pfx).length < 26 →
      Iban.complete pfx rnd = Iban.generate "00001".toList (padDigits rnd 16) ∧
      Iban.validate (Iban.complete pfx rnd) = true) ∧
    (∀ pfx rnd, Iban.startsWithTR (Iban.clean pfx) = true →
      ¬ (Iban.clean pfx).length < 26 →
      Iban.complete pfx rnd = Iban.formatIban (Iban.clean pfx)) :=
  ⟨fun _ rnd h => iban_complete_empty rnd h,
    fun _ rnd h1 h2 => iban_complete_noTR rnd h1 h2,
    fun _ rnd h1 h2 => iban_complete_short rnd h1 h2,
    fun _ rnd h1 h2 => iban_complete_long rnd h1 h2⟩

/-- C9: `VknService.calculateCheckDigit` computes the specification's
closed q-sum formula on every 9-character prefix, `validate` accepts a
10-digit string exactly when its last digit equals that value, and the
check digit of `123456789` is `0`. -/
theorem claim_C9 :
    (∀ pfx, pfx.length = 9 →
      Vkn.calculateCheckDigit pfx = Vkn.checkDigitSpec pfx) ∧
    (∀ s, s.length = 10 → s.all isDigitChar = true →
      (Vkn.validate s = true ↔
        digitVal (s.getD 9 '0') = Vkn.checkDigitSpec (s.take 9))) ∧
    Vkn.calculateCheckDigit "123456789".toList = 0 := by
  refine ⟨fun pfx h => vkn_cd_spec h, fun s h hd => vkn_validate_iff h hd, ?_⟩
  decide

/-- C10: `CreditCardService.complete` always targets `lengths[0]` of
the detected network: every cleaned 4-to-12-digit prefix starting with
`4` (Visa, lengths 13/16/19) completes to exactly 13 digits after
cleaning, and a 13-digit Visa prefix is rejected as already complete
even though 16 and 19 are also legal Visa lengths. -/
theorem claim_C10 :
    (∀ input rnd, (CreditCard.cleanInput input).all isDigitChar = true →
      (CreditCard.cleanInput input).take 1 = ['4'] →
      4 ≤ (CreditCard.cleanInput input).length →
      (CreditCard.cleanInput input).length ≤ 12 →
      ∃ r, CreditCard.complete input rnd = .ok r ∧
        (CreditCard.cleanInput r).length = 13 ∧
        CreditCard.validate r = true) ∧
    (∀ input rnd, (CreditCard.cleanInput input).take 1 = ['4'] →
      (CreditCard.cleanInput input).length = 13 →
      CreditCard.complete input rnd
        = .error "Kredi kartı numarası zaten tamamlanmış") ∧
    (∃ r, CreditCard.complete "4123".toList (fun _ => (0 : Fin 10)) = .ok r ∧
      (CreditCard.cleanInput r).length = 13 ∧ CreditCard.validate r = true) ∧
    CreditCard.complete "4111111111111".toList (fun _ => (0 : Fin 10))
      = .error "Kredi kartı numarası zaten tamamlanmış" := by
  refine ⟨?_, ?_, ?_, ?_⟩
  · intro input rnd hdig h4 hge hle
    obtain ⟨r, hr, _, hlen, hval⟩ := cc_complete_visa rnd hdig h4 hge hle
    exact ⟨r, hr, hlen, hval⟩
  · intro input rnd h4 h13
    exact cc_complete_visa_err rnd h4 h13
  · obtain ⟨r, hr, _, hlen, hval⟩ := @cc_complete_visa "4123".toList
      (fun _ => (0 : Fin 10)) (by decide) (by decide) (by decide) (by decide)
    exact ⟨r, hr, hlen, hval⟩
  · exact @cc_complete_visa_err "4111111111111".toList (fun _ => (0 : Fin 10))
      (by decide) (by decide)

end Genara
